import Mathlib

/-!
# Multi-Level Feedback Queue scheduler

A shallow embedding of `src/Scheduler.js` and theorems about it.

The scheduler object is a record of its three fields (`clock`,
`blockingQueue`, `runningQueues`); every method becomes a function from the
state before the call to the state after it.  A call that throws in
JavaScript (a method call on `undefined`) returns `Except.error`.

`PRIORITY_LEVELS` comes from `constants/index`, which is not part of the
sources; it is a parameter of every definition that reads it.
-/

namespace MLFQ

/-! ## Data model -/

/-- Modelled from the spec: the two queue kinds of `constants/index` (`QueueType`), which is
not among the sources. -/
inductive QueueType where
  | CPU_QUEUE
  | BLOCKING_QUEUE
  deriving DecidableEq, Repr

/-- Modelled from the spec: the interrupt vocabulary of `constants/index`
(`SchedulerInterrupt`), which is not among the sources.  The three constants are the
recognised kinds; `other tag` is any value that is strictly equal to none of them. -/
inductive SchedulerInterrupt where
  | PROCESS_BLOCKED
  | PROCESS_READY
  | LOWER_PRIORITY
  | other (tag : String)
  deriving DecidableEq, Repr

/-- Modelled from the spec: a process (`Process.js` is not among the sources): a unique
identifier, the remaining CPU burst and the remaining blocking burst.  The tier of a process
is the tier of the queue that holds it. -/
structure Process where
  pid : Nat
  cpuTimeNeeded : Nat
  blockingTimeNeeded : Nat
  deriving DecidableEq, Repr

/-- Modelled from the spec: the fields of a queue (`Queue.js` is not among the sources), in
the order of the arguments of `new Queue(scheduler, quantum, priorityLevel, queueType)`; the
back-reference to the scheduler is the state that is passed explicitly. -/
structure Queue where
  quantum : Nat
  priorityLevel : Int
  queueType : QueueType
  processes : List Process
  deriving DecidableEq, Repr

/-- Modelled from the spec: `enqueue(process)` "appends to the back of the internal ordered
sequence". -/
def Queue.enqueue (q : Queue) (process : Process) : Queue :=
  { q with processes := q.processes ++ [process] }

/-- Modelled from the spec: `isEmpty()`, a predicate without side effects. -/
def Queue.isEmpty (q : Queue) : Bool :=
  q.processes.isEmpty

/-- Modelled from the spec: `getQueueType()`, a pure accessor. -/
def Queue.getQueueType (q : Queue) : QueueType :=
  q.queueType

/-- Modelled from the spec: `getPriorityLevel()`, a pure accessor. -/
def Queue.getPriorityLevel (q : Queue) : Int :=
  q.priorityLevel

/-- The fields of a `Scheduler` object. -/
structure Scheduler where
  clock : Int
  blockingQueue : Queue
  runningQueues : List Queue
  deriving DecidableEq, Repr

/-- What a call can end in other than a normal return: the `TypeError` JavaScript throws for a
method call on `undefined`, the fail-fast error of a work primitive run on an empty queue, and
the exhaustion of the fuel that bounds the loops of the model. -/
inductive Fault where
  | typeError
  | emptyQueue
  | fuelExhausted
  deriving DecidableEq, Repr

/-! ## Scheduler.js -/

/-- The constructor (lines 12-25): `clock = Date.now()` (the reading is `now`), one blocking
queue with budget 50, and for `i = 0 .. PRIORITY_LEVELS - 1` a CPU queue of quantum
`10 + i * 20` and priority level `i`. -/
def Scheduler.constructor (PRIORITY_LEVELS : Nat) (now : Int) : Scheduler :=
  { clock := now
    blockingQueue := ⟨50, 0, QueueType.BLOCKING_QUEUE, []⟩
    runningQueues :=
      (List.range PRIORITY_LEVELS).map fun i => ⟨10 + i * 20, (i : Int), QueueType.CPU_QUEUE, []⟩ }

/-- The array read `this.runningQueues[index]`: `undefined` (here `none`) unless
`0 ≤ index < length`. -/
def Scheduler.runningQueueAt (s : Scheduler) (index : Int) : Option Queue :=
  if 0 ≤ index then s.runningQueues[index.toNat]? else none

/-- The statement `this.runningQueues[index].enqueue(process)`: a `TypeError` when the array
has no such entry, otherwise that queue is replaced by itself with `process` enqueued. -/
def Scheduler.enqueueRunning (s : Scheduler) (index : Int) (process : Process) :
    Except Fault Scheduler :=
  match s.runningQueueAt index with
  | none => Except.error Fault.typeError
  | some queue =>
    Except.ok { s with runningQueues := s.runningQueues.set index.toNat (queue.enqueue process) }

/-- The statement `this.blockingQueue.enqueue(process)`. -/
def Scheduler.enqueueBlocking (s : Scheduler) (process : Process) : Scheduler :=
  { s with blockingQueue := s.blockingQueue.enqueue process }

/-- The method `allQueuesEmpty` (lines 47-54). -/
def Scheduler.allQueuesEmpty (s : Scheduler) : Bool :=
  s.blockingQueue.isEmpty && s.runningQueues.all fun queue => queue.isEmpty

/-- The method `addNewProcess` (lines 56-58). -/
def Scheduler.addNewProcess (s : Scheduler) (process : Process) : Except Fault Scheduler :=
  s.enqueueRunning 0 process

/-- The method `handleInterrupt` (lines 62-80).  The `switch` has no `default`, so any other
value of `interrupt` falls through and the call returns with nothing done. -/
def Scheduler.handleInterrupt (PRIORITY_LEVELS : Nat) (s : Scheduler) (queue : Queue)
    (process : Process) (interrupt : SchedulerInterrupt) : Except Fault Scheduler :=
  match interrupt with
  | SchedulerInterrupt.PROCESS_BLOCKED => Except.ok (s.enqueueBlocking process)
  | SchedulerInterrupt.PROCESS_READY => s.addNewProcess process
  | SchedulerInterrupt.LOWER_PRIORITY =>
    if queue.getQueueType = QueueType.CPU_QUEUE then
      let priority_level := queue.getPriorityLevel
      let priority_level :=
        if priority_level < (PRIORITY_LEVELS : Int) - 1 then priority_level + 1
        else priority_level
      s.enqueueRunning priority_level process
    else
      Except.ok (s.enqueueBlocking process)
  | SchedulerInterrupt.other _ => Except.ok s

/-- The accessor `_getCPUQueue` (lines 83-85): the value returned (`none` for `undefined`) and
the scheduler state after the call. -/
def Scheduler._getCPUQueue (s : Scheduler) (priorityLevel : Int) : Option Queue × Scheduler :=
  (s.runningQueueAt priorityLevel, s)

/-- The accessor `_getBlockingQueue` (lines 88-90): the value returned and the scheduler state
after the call. -/
def Scheduler._getBlockingQueue (s : Scheduler) : Queue × Scheduler :=
  (s.blockingQueue, s)

/-- The index that lines 72-73 of `handleInterrupt` compute from the source queue of a
`LOWER_PRIORITY` interrupt and line 74 uses to select the destination queue. -/
def Scheduler.demotionIndex (PRIORITY_LEVELS : Nat) (queue : Queue) : Int :=
  let priority_level := queue.getPriorityLevel
  if priority_level < (PRIORITY_LEVELS : Int) - 1 then priority_level + 1 else priority_level

/-! ## The dispatch loop -/

/-- The two work primitives of `Queue.js` that `run` calls, as state transformers:
`doBlockingWork s timeslice` is `this.blockingQueue.doBlockingWork(timeslice)` and
`doCPUWork s i timeslice` is `this.runningQueues[i].doCPUWork(timeslice)`, both run in the
scheduler state `s`.  `Queue.js` is not among the sources, so `run` is modelled for an arbitrary
pair of primitives. -/
structure QueueWork where
  doBlockingWork : Scheduler → Int → Except Fault Scheduler
  doCPUWork : Scheduler → Nat → Int → Except Fault Scheduler

/-- The queue a work primitive is invoked on. -/
inductive WorkTarget where
  | blockingQueue
  | runningQueue (i : Nat)
  deriving DecidableEq, Repr

/-- One invocation of a work primitive by `run`: the queue, the argument, and the scheduler
state at the moment of the invocation. -/
structure WorkCall where
  target : WorkTarget
  timeslice : Int
  pre : Scheduler
  deriving DecidableEq, Repr

/-- The record of one iteration of the `while` loop: its `timeslice` and the invocations it
made, in order. -/
structure Iteration where
  timeslice : Int
  calls : List WorkCall
  deriving DecidableEq, Repr

/-- The `for` loop of `run` (lines 38-42) from index `i` on.  `this.runningQueues.length` is
read afresh at every test, so the loop is bounded by `fuel`. -/
def Scheduler.cpuLoop (W : QueueWork) (timeslice : Int) :
    Nat → Nat → Scheduler → List WorkCall → Except Fault (Scheduler × List WorkCall)
  | fuel, i, s, calls =>
    match s.runningQueues[i]? with
    | none => Except.ok (s, calls)
    | some queue =>
      match fuel with
      | 0 => Except.error Fault.fuelExhausted
      | fuel + 1 =>
        if !queue.isEmpty then
          match W.doCPUWork s i timeslice with
          | Except.error e => Except.error e
          | Except.ok s' =>
            Scheduler.cpuLoop W timeslice fuel (i + 1) s'
              (calls ++ [⟨WorkTarget.runningQueue i, timeslice, s⟩])
        else
          Scheduler.cpuLoop W timeslice fuel (i + 1) s calls

/-- The body of the `while` loop after `timeslice` has been computed (lines 35-42). -/
def Scheduler.iteration (W : QueueWork) (fuel : Nat) (timeslice : Int) (s : Scheduler) :
    Except Fault (Scheduler × List WorkCall) :=
  if !s.blockingQueue.isEmpty then
    match W.doBlockingWork s timeslice with
    | Except.error e => Except.error e
    | Except.ok s' =>
      Scheduler.cpuLoop W timeslice fuel 0 s' [⟨WorkTarget.blockingQueue, timeslice, s⟩]
  else
    Scheduler.cpuLoop W timeslice fuel 0 s []

/-- The `while` loop of `run` (lines 33-43).  `now k` is the value of the `k`-th call of
`Date.now()` made by `run`, `reads` the number of calls made so far, `bound` the fuel of every
`for` loop and `fuel` the number of iterations the model may still make.  The result is the
final state, the record of the iterations made and the number of clock readings taken. -/
def Scheduler.runLoop (W : QueueWork) (now : Nat → Int) (bound : Nat) :
    Nat → Nat → Scheduler → List Iteration → Except Fault (Scheduler × List Iteration × Nat)
  | fuel, reads, s, done =>
    if !s.allQueuesEmpty then
      match fuel with
      | 0 => Except.error Fault.fuelExhausted
      | fuel + 1 =>
        let timeslice := now reads - s.clock
        match Scheduler.iteration W bound timeslice s with
        | Except.error e => Except.error e
        | Except.ok (s', calls) =>
          Scheduler.runLoop W now bound fuel (reads + 1) s' (done ++ [⟨timeslice, calls⟩])
    else
      Except.ok (s, done, reads)

/-- The method `run` (lines 32-45): the loop, then `this.clock = Date.now()`. -/
def Scheduler.run (W : QueueWork) (now : Nat → Int) (fuel : Nat) (s : Scheduler) :
    Except Fault (Scheduler × List Iteration) :=
  match Scheduler.runLoop W now fuel fuel 0 s [] with
  | Except.error e => Except.error e
  | Except.ok (s', done, reads) => Except.ok ({ s' with clock := now reads }, done)

/-! ## Queue.js, modelled from the spec -/

/-- Modelled from the spec: how long the process at the front is executed, "min(quantum,
remaining burst, budget derived from timeslice)"; the budget derived from the timeslice is the
timeslice itself, and none when the timeslice is negative. -/
def Queue.workTime (q : Queue) (remaining : Nat) (timeslice : Int) : Nat :=
  min q.quantum (min remaining timeslice.toNat)

/-- Modelled from the spec: `doCPUWork(timeslice)` of `Queue.js` (not among the sources), run
on `this.runningQueues[i]`.  It fails fast on an empty queue; otherwise it removes the process
at the front, executes it for `workTime`, and either drops it (both bursts exhausted), emits
`PROCESS_BLOCKED` (CPU burst exhausted, blocking burst left) or emits `LOWER_PRIORITY` (CPU
burst left).  One process is served per call. -/
def Queue.doCPUWork (PRIORITY_LEVELS : Nat) (s : Scheduler) (i : Nat) (timeslice : Int) :
    Except Fault Scheduler :=
  match s.runningQueues[i]? with
  | none => Except.error Fault.typeError
  | some queue =>
    match queue.processes with
    | [] => Except.error Fault.emptyQueue
    | process :: rest =>
      let worked := queue.workTime process.cpuTimeNeeded timeslice
      let process := { process with cpuTimeNeeded := process.cpuTimeNeeded - worked }
      let s := { s with runningQueues := s.runningQueues.set i { queue with processes := rest } }
      if process.cpuTimeNeeded = 0 then
        if process.blockingTimeNeeded = 0 then Except.ok s
        else s.handleInterrupt PRIORITY_LEVELS queue process SchedulerInterrupt.PROCESS_BLOCKED
      else s.handleInterrupt PRIORITY_LEVELS queue process SchedulerInterrupt.LOWER_PRIORITY

/-- Modelled from the spec: `doBlockingWork(timeslice)` of `Queue.js` (not among the sources),
run on `this.blockingQueue`.  It fails fast on an empty queue; otherwise it removes the process
at the front, lowers its remaining blocking burst by `workTime`, and emits `PROCESS_READY` when
that burst has reached zero and `LOWER_PRIORITY` otherwise. -/
def Queue.doBlockingWork (PRIORITY_LEVELS : Nat) (s : Scheduler) (timeslice : Int) :
    Except Fault Scheduler :=
  let queue := s.blockingQueue
  match queue.processes with
  | [] => Except.error Fault.emptyQueue
  | process :: rest =>
    let worked := queue.workTime process.blockingTimeNeeded timeslice
    let process := { process with blockingTimeNeeded := process.blockingTimeNeeded - worked }
    let s := { s with blockingQueue := { queue with processes := rest } }
    if process.blockingTimeNeeded = 0 then
      s.handleInterrupt PRIORITY_LEVELS queue process SchedulerInterrupt.PROCESS_READY
    else s.handleInterrupt PRIORITY_LEVELS queue process SchedulerInterrupt.LOWER_PRIORITY

/-- Modelled from the spec: the work primitives of `Queue.js` as `run` calls them. -/
def Queue.work (PRIORITY_LEVELS : Nat) : QueueWork :=
  { doBlockingWork := Queue.doBlockingWork PRIORITY_LEVELS
    doCPUWork := Queue.doCPUWork PRIORITY_LEVELS }

/-! ## Membership of processes in queues -/

/-- All queues a scheduler owns: the blocking queue, then the CPU queues by tier.  Queue `0` of
this list is the blocking queue and queue `i + 1` the CPU queue of tier `i`. -/
def Scheduler.queues (s : Scheduler) : List Queue :=
  s.blockingQueue :: s.runningQueues

/-- How many times `process` occurs in queue `j` of `s.queues` (0 when there is no such
queue). -/
def Scheduler.occurrences (s : Scheduler) (j : Nat) (process : Process) : Nat :=
  match s.queues[j]? with
  | some queue => queue.processes.count process
  | none => 0

/-- The number of processes held by all queues together. -/
def Scheduler.totalQueued (s : Scheduler) : Nat :=
  (s.queues.map fun queue => queue.processes.length).sum

/-- The shape the constructor gives a scheduler: a blocking queue of blocking kind and
`PRIORITY_LEVELS` CPU queues, the one at index `i` of CPU kind and priority level `i`. -/
def Scheduler.WellFormed (PRIORITY_LEVELS : Nat) (s : Scheduler) : Prop :=
  s.blockingQueue.queueType = QueueType.BLOCKING_QUEUE ∧
  s.runningQueues.length = PRIORITY_LEVELS ∧
  ∀ i : Fin s.runningQueues.length,
    (s.runningQueues.get i).queueType = QueueType.CPU_QUEUE ∧
    (s.runningQueues.get i).priorityLevel = ((i : Nat) : Int)

instance (PRIORITY_LEVELS : Nat) (s : Scheduler) :
    Decidable (Scheduler.WellFormed PRIORITY_LEVELS s) := by
  unfold Scheduler.WellFormed
  infer_instance

/-! ## Clock-preserving work -/

/-- The work primitives leave the `clock` field alone: per the spec the clock is written by the
scheduler only. -/
def QueueWork.PreservesClock (W : QueueWork) : Prop :=
  (∀ (s s' : Scheduler) (timeslice : Int),
    W.doBlockingWork s timeslice = Except.ok s' → s'.clock = s.clock) ∧
  (∀ (s s' : Scheduler) (i : Nat) (timeslice : Int),
    W.doCPUWork s i timeslice = Except.ok s' → s'.clock = s.clock)

/-! ## Configuration and order of service -/

/-- The configuration of a queue: everything but its process sequence. -/
def Queue.config (q : Queue) : Nat × Int × QueueType :=
  (q.quantum, q.priorityLevel, q.queueType)

/-- The position in `Scheduler.queues` of the queue a work primitive is invoked on: 0 for the
blocking queue, `i + 1` for the CPU queue of tier `i`. -/
def WorkTarget.position : WorkTarget → Nat
  | WorkTarget.blockingQueue => 0
  | WorkTarget.runningQueue i => i + 1

/-- The queue of `s` that `target` names is there and holds a process. -/
def WorkTarget.NonEmptyIn (target : WorkTarget) (s : Scheduler) : Prop :=
  ∃ queue : Queue, s.queues[target.position]? = some queue ∧ queue.isEmpty = false

instance (target : WorkTarget) (s : Scheduler) : Decidable (target.NonEmptyIn s) :=
  match h : s.queues[target.position]? with
  | none => isFalse (by rintro ⟨queue, hq, -⟩; rw [h] at hq; cases hq)
  | some queue =>
    if he : queue.isEmpty = false then isTrue ⟨queue, h, he⟩
    else isFalse (by
      rintro ⟨queue', hq, hempty⟩
      rw [h] at hq
      cases hq
      exact he hempty)

/-- The result of the work primitive that `call` stands for, run from the state recorded in the
call. -/
def QueueWork.perform (W : QueueWork) (call : WorkCall) : Except Fault Scheduler :=
  match call.target with
  | WorkTarget.blockingQueue => W.doBlockingWork call.pre call.timeslice
  | WorkTarget.runningQueue i => W.doCPUWork call.pre i call.timeslice

/-! ## The record of an iteration -/

/-- The calls of `calls` were made one after the other from the state `start` to the state
`final`: the first in `start`, each later one in the state the call before it returned, and
`final` is the state the last call returned (`start` itself when there is no call). -/
def QueueWork.Threads (W : QueueWork) : Scheduler → List WorkCall → Scheduler → Prop
  | start, [], final => final = start
  | start, call :: rest, final =>
    call.pre = start ∧ ∃ next : Scheduler, W.perform call = Except.ok next ∧
      W.Threads next rest final

/-- The state in which an iteration that made `calls` and ended in `final` tested CPU tier `i`:
the state of the first call on tier `i` or a later tier, and `final` when there is no such
call. -/
def WorkCall.stateAtTest (calls : List WorkCall) (final : Scheduler) (i : Nat) : Scheduler :=
  match calls.find? fun call => decide (i + 1 ≤ call.target.position) with
  | some call => call.pre
  | none => final

/-! ## States used in the examples -/

/-- A scheduler with three tiers, constructed at clock reading 0. -/
def Examples.fresh : Scheduler := Scheduler.constructor 3 0

/-- A process with a CPU burst of 25 and no blocking burst. -/
def Examples.cpuJob : Process := ⟨1, 25, 0⟩

/-- A process with a CPU burst of 5 and a blocking burst of 8. -/
def Examples.ioJob : Process := ⟨2, 5, 8⟩

/-- The three-tier scheduler holding `ioJob` in tier 0 and `cpuJob` in tier 2 and in the
blocking queue a process of its own. -/
def Examples.busy : Scheduler :=
  { clock := 0
    blockingQueue := ⟨50, 0, QueueType.BLOCKING_QUEUE, [⟨3, 0, 60⟩]⟩
    runningQueues :=
      [⟨10, 0, QueueType.CPU_QUEUE, [Examples.ioJob]⟩,
       ⟨30, 1, QueueType.CPU_QUEUE, []⟩,
       ⟨50, 2, QueueType.CPU_QUEUE, [Examples.cpuJob]⟩] }

/-- A process that is in no queue of `busy`. -/
def Examples.newcomer : Process := ⟨7, 12, 3⟩

/-- The three-tier scheduler, constructed at clock reading 0, after `ioJob` was admitted. -/
def Examples.admitted : Scheduler :=
  { clock := 0
    blockingQueue := ⟨50, 0, QueueType.BLOCKING_QUEUE, []⟩
    runningQueues :=
      [⟨10, 0, QueueType.CPU_QUEUE, [Examples.ioJob]⟩,
       ⟨30, 1, QueueType.CPU_QUEUE, []⟩,
       ⟨50, 2, QueueType.CPU_QUEUE, []⟩] }

/-- Readings of `Date.now()` during a call of `run`: 100, 130, 170, then 200. -/
def Examples.readings (k : Nat) : Int :=
  match k with
  | 0 => 100
  | 1 => 130
  | 2 => 170
  | _ => 200

/-- The three-tier scheduler with `ioJob` waiting in the blocking queue, its CPU burst done,
and every CPU queue empty. -/
def Examples.blocked : Scheduler :=
  { clock := 0
    blockingQueue := ⟨50, 0, QueueType.BLOCKING_QUEUE, [⟨2, 0, 8⟩]⟩
    runningQueues :=
      [⟨10, 0, QueueType.CPU_QUEUE, []⟩,
       ⟨30, 1, QueueType.CPU_QUEUE, []⟩,
       ⟨50, 2, QueueType.CPU_QUEUE, []⟩] }

/-- The three-tier scheduler with `cpuJob` in tier 0 and every other queue empty. -/
def Examples.long : Scheduler :=
  { clock := 0
    blockingQueue := ⟨50, 0, QueueType.BLOCKING_QUEUE, []⟩
    runningQueues :=
      [⟨10, 0, QueueType.CPU_QUEUE, [Examples.cpuJob]⟩,
       ⟨30, 1, QueueType.CPU_QUEUE, []⟩,
       ⟨50, 2, QueueType.CPU_QUEUE, []⟩] }

end MLFQ

namespace MLFQ

/-! ## Lemmas on the queue array -/

theorem Scheduler.runningQueueAt_natCast (s : Scheduler) (i : Nat) :
    s.runningQueueAt (i : Int) = s.runningQueues[i]? := by
  simp [Scheduler.runningQueueAt]

theorem Scheduler.enqueueRunning_of_getElem? (s : Scheduler) (i : Nat) (process : Process)
    (target : Queue) (h : s.runningQueues[i]? = some target) :
    s.enqueueRunning (i : Int) process =
      Except.ok { s with runningQueues := s.runningQueues.set i (target.enqueue process) } := by
  simp [Scheduler.enqueueRunning, Scheduler.runningQueueAt_natCast, h]

theorem Scheduler.enqueueRunning_error (s : Scheduler) (index : Int) (process : Process)
    (h : s.runningQueueAt index = none) :
    s.enqueueRunning index process = Except.error Fault.typeError := by
  simp [Scheduler.enqueueRunning, h]

/-- The index `handleInterrupt` computes for a `LOWER_PRIORITY` interrupt from a CPU queue of
tier `k`. -/
theorem lower_priority_index (PRIORITY_LEVELS k : Nat) (hk : k < PRIORITY_LEVELS) :
    (if (k : Int) < (PRIORITY_LEVELS : Int) - 1 then (k : Int) + 1 else (k : Int)) =
      ((min (k + 1) (PRIORITY_LEVELS - 1) : Nat) : Int) := by
  split <;> omega

/-- C1: a `LOWER_PRIORITY` interrupt from a CPU queue of tier `k < PRIORITY_LEVELS` returns
normally and enqueues the process into the CPU queue of tier `min (k + 1) (PRIORITY_LEVELS - 1)`,
which is `k + 1` below the lowest tier and `k` at the lowest tier; the blocking queue, the clock
and every other CPU queue are unchanged. -/
theorem handleInterrupt_lower_priority_cpu (PRIORITY_LEVELS : Nat) (s : Scheduler)
    (queue : Queue) (process : Process) (k : Nat)
    (hlen : s.runningQueues.length = PRIORITY_LEVELS)
    (htype : queue.getQueueType = QueueType.CPU_QUEUE)
    (hlevel : queue.getPriorityLevel = (k : Int)) (hk : k < PRIORITY_LEVELS) :
    ∃ (dest : Nat) (target : Queue) (s' : Scheduler),
      dest = min (k + 1) (PRIORITY_LEVELS - 1) ∧
      (k < PRIORITY_LEVELS - 1 → dest = k + 1) ∧
      (k = PRIORITY_LEVELS - 1 → dest = k) ∧
      s.runningQueues[dest]? = some target ∧
      s.handleInterrupt PRIORITY_LEVELS queue process SchedulerInterrupt.LOWER_PRIORITY
        = Except.ok s' ∧
      s'.runningQueues[dest]? = some (target.enqueue process) ∧
      (∀ j : Nat, j ≠ dest → s'.runningQueues[j]? = s.runningQueues[j]?) ∧
      s'.runningQueues.length = s.runningQueues.length ∧
      s'.blockingQueue = s.blockingQueue ∧
      s'.clock = s.clock := by
  obtain ⟨dest, hdest⟩ : ∃ dest : Nat, dest = min (k + 1) (PRIORITY_LEVELS - 1) := ⟨_, rfl⟩
  have hd : dest < s.runningQueues.length := by omega
  have hget : s.runningQueues[dest]? = some s.runningQueues[dest] := List.getElem?_eq_getElem hd
  have hcall : s.handleInterrupt PRIORITY_LEVELS queue process SchedulerInterrupt.LOWER_PRIORITY
      = s.enqueueRunning (dest : Int) process := by
    simp only [Scheduler.handleInterrupt, htype, hlevel, if_true,
      lower_priority_index PRIORITY_LEVELS k hk, hdest]
  rw [Scheduler.enqueueRunning_of_getElem? s dest process _ hget] at hcall
  refine ⟨dest, s.runningQueues[dest], _, hdest, by omega, by omega, hget, hcall, ?_, ?_, ?_,
    rfl, rfl⟩
  · simp [hd]
  · intro j hj
    simp [List.getElem?_set, Ne.symm hj]
  · simp

/-- Witness of C1: the tier-2 queue of `busy` (the lowest tier of three) demotes `newcomer`
into tier 2 itself. -/
theorem handleInterrupt_lower_priority_cpu_witness :
    ∃ (dest : Nat) (target : Queue) (s' : Scheduler),
      dest = min (2 + 1) (3 - 1) ∧
      (2 < 3 - 1 → dest = 2 + 1) ∧
      (2 = 3 - 1 → dest = 2) ∧
      Examples.busy.runningQueues[dest]? = some target ∧
      Examples.busy.handleInterrupt 3 ⟨50, 2, QueueType.CPU_QUEUE, [Examples.cpuJob]⟩
        Examples.newcomer SchedulerInterrupt.LOWER_PRIORITY = Except.ok s' ∧
      s'.runningQueues[dest]? = some (target.enqueue Examples.newcomer) ∧
      (∀ j : Nat, j ≠ dest → s'.runningQueues[j]? = Examples.busy.runningQueues[j]?) ∧
      s'.runningQueues.length = Examples.busy.runningQueues.length ∧
      s'.blockingQueue = Examples.busy.blockingQueue ∧
      s'.clock = Examples.busy.clock :=
  handleInterrupt_lower_priority_cpu 3 Examples.busy
    ⟨50, 2, QueueType.CPU_QUEUE, [Examples.cpuJob]⟩ Examples.newcomer 2 (by decide) rfl rfl
    (by decide)

/-- C2: a `PROCESS_BLOCKED` interrupt, whatever the source queue, returns normally and enqueues
the process into the blocking queue; the CPU queues and the clock are unchanged. -/
theorem handleInterrupt_process_blocked (PRIORITY_LEVELS : Nat) (s : Scheduler) (queue : Queue)
    (process : Process) :
    ∃ s' : Scheduler,
      s.handleInterrupt PRIORITY_LEVELS queue process SchedulerInterrupt.PROCESS_BLOCKED
        = Except.ok s' ∧
      s'.blockingQueue = s.blockingQueue.enqueue process ∧
      s'.runningQueues = s.runningQueues ∧
      s'.clock = s.clock :=
  ⟨s.enqueueBlocking process, rfl, rfl, rfl, rfl⟩

/-- C3: a `PROCESS_READY` interrupt, whatever the source queue, does what `addNewProcess` does:
the two calls give the same result, and in a scheduler that has a tier 0 they return normally
with the process enqueued into the tier-0 CPU queue and the blocking queue, the other CPU queues
and the clock unchanged. -/
theorem handleInterrupt_process_ready (PRIORITY_LEVELS : Nat) (s : Scheduler) (queue : Queue)
    (process : Process) (h0 : 0 < s.runningQueues.length) :
    s.handleInterrupt PRIORITY_LEVELS queue process SchedulerInterrupt.PROCESS_READY
      = s.addNewProcess process ∧
    ∃ (tier0 : Queue) (s' : Scheduler),
      s.runningQueues[0]? = some tier0 ∧
      s.handleInterrupt PRIORITY_LEVELS queue process SchedulerInterrupt.PROCESS_READY
        = Except.ok s' ∧
      s'.runningQueues[0]? = some (tier0.enqueue process) ∧
      (∀ j : Nat, j ≠ 0 → s'.runningQueues[j]? = s.runningQueues[j]?) ∧
      s'.runningQueues.length = s.runningQueues.length ∧
      s'.blockingQueue = s.blockingQueue ∧
      s'.clock = s.clock := by
  have hget : s.runningQueues[0]? = some s.runningQueues[0] := List.getElem?_eq_getElem h0
  have hcall : s.handleInterrupt PRIORITY_LEVELS queue process SchedulerInterrupt.PROCESS_READY
      = s.enqueueRunning ((0 : Nat) : Int) process := rfl
  rw [Scheduler.enqueueRunning_of_getElem? s 0 process _ hget] at hcall
  refine ⟨rfl, s.runningQueues[0], _, hget, hcall, ?_, ?_, ?_, rfl, rfl⟩
  · simp [h0]
  · intro j hj
    simp [List.getElem?_set, Ne.symm hj]
  · simp

/-- Witness of C3: `PROCESS_READY` sent by the blocking queue of `busy`. -/
theorem handleInterrupt_process_ready_witness :
    Examples.busy.handleInterrupt 3 Examples.busy.blockingQueue Examples.newcomer
        SchedulerInterrupt.PROCESS_READY
      = Examples.busy.addNewProcess Examples.newcomer ∧
    ∃ (tier0 : Queue) (s' : Scheduler),
      Examples.busy.runningQueues[0]? = some tier0 ∧
      Examples.busy.handleInterrupt 3 Examples.busy.blockingQueue Examples.newcomer
        SchedulerInterrupt.PROCESS_READY = Except.ok s' ∧
      s'.runningQueues[0]? = some (tier0.enqueue Examples.newcomer) ∧
      (∀ j : Nat, j ≠ 0 → s'.runningQueues[j]? = Examples.busy.runningQueues[j]?) ∧
      s'.runningQueues.length = Examples.busy.runningQueues.length ∧
      s'.blockingQueue = Examples.busy.blockingQueue ∧
      s'.clock = Examples.busy.clock :=
  handleInterrupt_process_ready 3 Examples.busy Examples.busy.blockingQueue Examples.newcomer
    (by decide)

/-- C4: a `LOWER_PRIORITY` interrupt from a queue that is not of CPU kind returns normally and
enqueues the process into the blocking queue, whatever the priority level of the source queue;
the CPU queues and the clock are unchanged. -/
theorem handleInterrupt_lower_priority_blocking (PRIORITY_LEVELS : Nat) (s : Scheduler)
    (queue : Queue) (process : Process)
    (htype : queue.getQueueType ≠ QueueType.CPU_QUEUE) :
    ∃ s' : Scheduler,
      s.handleInterrupt PRIORITY_LEVELS queue process SchedulerInterrupt.LOWER_PRIORITY
        = Except.ok s' ∧
      s'.blockingQueue = s.blockingQueue.enqueue process ∧
      s'.runningQueues = s.runningQueues ∧
      s'.clock = s.clock := by
  refine ⟨s.enqueueBlocking process, ?_, rfl, rfl, rfl⟩
  simp [Scheduler.handleInterrupt, htype]

/-- Witness of C4: a blocking-kind source queue whose priority level is 7. -/
theorem handleInterrupt_lower_priority_blocking_witness :
    ∃ s' : Scheduler,
      Examples.busy.handleInterrupt 3 ⟨50, 7, QueueType.BLOCKING_QUEUE, []⟩ Examples.newcomer
        SchedulerInterrupt.LOWER_PRIORITY = Except.ok s' ∧
      s'.blockingQueue = Examples.busy.blockingQueue.enqueue Examples.newcomer ∧
      s'.runningQueues = Examples.busy.runningQueues ∧
      s'.clock = Examples.busy.clock :=
  handleInterrupt_lower_priority_blocking 3 Examples.busy ⟨50, 7, QueueType.BLOCKING_QUEUE, []⟩
    Examples.newcomer (by decide)

/-! ## Conservation lemmas -/

theorem Queue.enqueue_ne (target : Queue) (process : Process) :
    target.enqueue process ≠ target := by
  intro h
  have := congrArg (fun q : Queue => q.processes.length) h
  simp [Queue.enqueue] at this

/-- A successful `enqueueRunning` replaced exactly one entry of the queue array. -/
theorem Scheduler.enqueueRunning_ok (s s' : Scheduler) (index : Int) (process : Process)
    (h : s.enqueueRunning index process = Except.ok s') :
    ∃ (d : Nat) (target : Queue), index = (d : Int) ∧ s.runningQueues[d]? = some target ∧
      s' = { s with runningQueues := s.runningQueues.set d (target.enqueue process) } := by
  unfold Scheduler.enqueueRunning at h
  split at h
  · cases h
  · rename_i target hq
    unfold Scheduler.runningQueueAt at hq
    split at hq
    · rename_i hpos
      refine ⟨index.toNat, target, (Int.toNat_of_nonneg hpos).symm, hq, ?_⟩
      cases h
      rfl
    · cases hq

theorem sum_length_set (queues : List Queue) (d : Nat) (target : Queue) (process : Process)
    (h : queues[d]? = some target) :
    ((queues.set d (target.enqueue process)).map fun queue => queue.processes.length).sum
      = (queues.map fun queue => queue.processes.length).sum + 1 := by
  induction queues generalizing d with
  | nil => simp at h
  | cons q rest ih =>
    cases d with
    | zero =>
      simp only [List.getElem?_cons_zero, Option.some.injEq] at h
      subst h
      simp [Queue.enqueue]
      omega
    | succ d =>
      simp only [List.getElem?_cons_succ] at h
      simp only [List.set_cons_succ, List.map_cons, List.sum_cons, ih d h]
      omega

/-- What enqueueing into the blocking queue does to the membership of processes. -/
theorem Scheduler.conservation_enqueueBlocking (s : Scheduler) (process : Process)
    (hfresh : ∀ j : Nat, s.occurrences j process = 0) :
    (s.enqueueBlocking process).occurrences 0 process = 1 ∧
    (∀ j : Nat, j ≠ 0 → (s.enqueueBlocking process).occurrences j process = 0) ∧
    (∀ other : Process, other ≠ process → ∀ j : Nat,
      (s.enqueueBlocking process).occurrences j other = s.occurrences j other) ∧
    (s.enqueueBlocking process).totalQueued = s.totalQueued + 1 := by
  refine ⟨?_, ?_, ?_, ?_⟩
  · have := hfresh 0
    simp [Scheduler.occurrences, Scheduler.queues] at this
    simp [Scheduler.occurrences, Scheduler.queues, Scheduler.enqueueBlocking, Queue.enqueue, this]
  · intro j hj
    obtain ⟨j, rfl⟩ := Nat.exists_eq_succ_of_ne_zero hj
    have := hfresh (j + 1)
    simpa [Scheduler.occurrences, Scheduler.queues, Scheduler.enqueueBlocking] using this
  · intro other hne j
    cases j with
    | zero =>
      simp [Scheduler.occurrences, Scheduler.queues, Scheduler.enqueueBlocking, Queue.enqueue,
        List.count_singleton, Ne.symm hne]
    | succ j => simp [Scheduler.occurrences, Scheduler.queues, Scheduler.enqueueBlocking]
  · simp [Scheduler.totalQueued, Scheduler.queues, Scheduler.enqueueBlocking, Queue.enqueue]
    omega

/-- What enqueueing into the CPU queue of tier `d` does to the membership of processes. -/
theorem Scheduler.conservation_enqueueRunning (s : Scheduler) (d : Nat) (target : Queue)
    (process : Process) (hd : s.runningQueues[d]? = some target)
    (hfresh : ∀ j : Nat, s.occurrences j process = 0) :
    ({ s with runningQueues := s.runningQueues.set d (target.enqueue process) } :
        Scheduler).occurrences (d + 1) process = 1 ∧
    (∀ j : Nat, j ≠ d + 1 →
      ({ s with runningQueues := s.runningQueues.set d (target.enqueue process) } :
        Scheduler).occurrences j process = 0) ∧
    (∀ other : Process, other ≠ process → ∀ j : Nat,
      ({ s with runningQueues := s.runningQueues.set d (target.enqueue process) } :
        Scheduler).occurrences j other = s.occurrences j other) ∧
    ({ s with runningQueues := s.runningQueues.set d (target.enqueue process) } :
        Scheduler).totalQueued = s.totalQueued + 1 := by
  have hlt : d < s.runningQueues.length := by
    by_contra hge
    rw [List.getElem?_eq_none (by omega)] at hd
    cases hd
  refine ⟨?_, ?_, ?_, ?_⟩
  · have := hfresh (d + 1)
    simp [Scheduler.occurrences, Scheduler.queues, hd] at this
    simp [Scheduler.occurrences, Scheduler.queues, hlt, Queue.enqueue, this]
  · intro j hj
    cases j with
    | zero =>
      have := hfresh 0
      simpa [Scheduler.occurrences, Scheduler.queues] using this
    | succ j =>
      have hjd : d ≠ j := by omega
      have := hfresh (j + 1)
      simpa [Scheduler.occurrences, Scheduler.queues, List.getElem?_set, hjd] using this
  · intro other hne j
    cases j with
    | zero => simp [Scheduler.occurrences, Scheduler.queues]
    | succ j =>
      by_cases hjd : d = j
      · subst hjd
        have htarget : s.runningQueues[d] = target := by
          rw [List.getElem?_eq_getElem hlt] at hd
          exact Option.some.inj hd
        simp [Scheduler.occurrences, Scheduler.queues, hlt, htarget, Queue.enqueue,
          List.count_singleton, Ne.symm hne]
      · simp [Scheduler.occurrences, Scheduler.queues, List.getElem?_set, hjd]
  · simp only [Scheduler.totalQueued, Scheduler.queues, List.map_cons, List.sum_cons,
      sum_length_set s.runningQueues d target process hd]
    omega

/-! ## Routing -/

/-- Where `handleInterrupt` puts the process: in a well-formed scheduler with at least one
tier, a recognised interrupt from a queue of the scheduler returns normally, and the new state
is the old one with the process enqueued either into the blocking queue or into one CPU
queue. -/
theorem Scheduler.handleInterrupt_routes (PRIORITY_LEVELS : Nat) (s : Scheduler) (queue : Queue)
    (process : Process) (interrupt : SchedulerInterrupt)
    (hwf : s.WellFormed PRIORITY_LEVELS) (hpos : 0 < PRIORITY_LEVELS)
    (hsource : queue ∈ s.queues) (hkind : ∀ tag : String, interrupt ≠ SchedulerInterrupt.other tag) :
    s.handleInterrupt PRIORITY_LEVELS queue process interrupt
        = Except.ok (s.enqueueBlocking process) ∨
    ∃ (d : Nat) (target : Queue), s.runningQueues[d]? = some target ∧
      s.handleInterrupt PRIORITY_LEVELS queue process interrupt
        = Except.ok { s with runningQueues := s.runningQueues.set d (target.enqueue process) } := by
  obtain ⟨hbq, hlen, hcpu⟩ := hwf
  cases interrupt with
  | PROCESS_BLOCKED => exact Or.inl rfl
  | PROCESS_READY =>
    have h0 : 0 < s.runningQueues.length := by omega
    exact Or.inr ⟨0, s.runningQueues[0], List.getElem?_eq_getElem h0,
      Scheduler.enqueueRunning_of_getElem? s 0 process _ (List.getElem?_eq_getElem h0)⟩
  | other tag => exact absurd rfl (hkind tag)
  | LOWER_PRIORITY =>
    simp only [Scheduler.queues, List.mem_cons] at hsource
    rcases hsource with rfl | hmem
    · left
      simp [Scheduler.handleInterrupt, Queue.getQueueType, hbq, Scheduler.enqueueBlocking]
    · right
      obtain ⟨i, hi⟩ := List.mem_iff_get.mp hmem
      obtain ⟨htype, hlevel⟩ := hcpu i
      rw [hi] at htype hlevel
      have hk : (i : Nat) < PRIORITY_LEVELS := by have := i.isLt; omega
      have hd : min ((i : Nat) + 1) (PRIORITY_LEVELS - 1) < s.runningQueues.length := by omega
      refine ⟨min ((i : Nat) + 1) (PRIORITY_LEVELS - 1), s.runningQueues[_],
        List.getElem?_eq_getElem hd, ?_⟩
      simp only [Scheduler.handleInterrupt, Queue.getQueueType, Queue.getPriorityLevel, htype,
        hlevel, if_true, lower_priority_index PRIORITY_LEVELS i hk]
      exact Scheduler.enqueueRunning_of_getElem? s _ process _ (List.getElem?_eq_getElem hd)

/-- C5: `addNewProcess` of a process that is in no queue of a scheduler that has a tier 0
returns normally; afterwards the sequence of the tier-0 CPU queue is its previous sequence
followed by the process, the blocking queue and the CPU queues of the tiers from 1 on are
unchanged, and the process occurs once in tier 0 and in no other queue. -/
theorem addNewProcess_appends_to_tier0 (s : Scheduler) (process : Process)
    (h0 : 0 < s.runningQueues.length)
    (hfresh : ∀ j : Nat, s.occurrences j process = 0) :
    ∃ (tier0 tier0' : Queue) (s' : Scheduler),
      s.runningQueues[0]? = some tier0 ∧
      s.addNewProcess process = Except.ok s' ∧
      s'.runningQueues[0]? = some tier0' ∧
      tier0'.processes = tier0.processes ++ [process] ∧
      (∀ j : Nat, 1 ≤ j → s'.runningQueues[j]? = s.runningQueues[j]?) ∧
      s'.blockingQueue = s.blockingQueue ∧
      s'.occurrences 1 process = 1 ∧
      (∀ j : Nat, j ≠ 1 → s'.occurrences j process = 0) := by
  have hget : s.runningQueues[0]? = some s.runningQueues[0] := List.getElem?_eq_getElem h0
  have hcall : s.addNewProcess process = s.enqueueRunning ((0 : Nat) : Int) process := rfl
  rw [Scheduler.enqueueRunning_of_getElem? s 0 process _ hget] at hcall
  obtain ⟨hone, hzero, -, -⟩ :=
    Scheduler.conservation_enqueueRunning s 0 s.runningQueues[0] process hget hfresh
  refine ⟨s.runningQueues[0], (s.runningQueues[0]).enqueue process, _, hget, hcall, ?_, rfl, ?_,
    rfl, hone, hzero⟩
  · simp [h0]
  · intro j hj
    have : 0 ≠ j := by omega
    simp [List.getElem?_set, this]

/-- Witness of C5: `newcomer` is admitted to `busy`. -/
theorem addNewProcess_appends_to_tier0_witness :
    ∃ (tier0 tier0' : Queue) (s' : Scheduler),
      Examples.busy.runningQueues[0]? = some tier0 ∧
      Examples.busy.addNewProcess Examples.newcomer = Except.ok s' ∧
      s'.runningQueues[0]? = some tier0' ∧
      tier0'.processes = tier0.processes ++ [Examples.newcomer] ∧
      (∀ j : Nat, 1 ≤ j → s'.runningQueues[j]? = Examples.busy.runningQueues[j]?) ∧
      s'.blockingQueue = Examples.busy.blockingQueue ∧
      s'.occurrences 1 Examples.newcomer = 1 ∧
      (∀ j : Nat, j ≠ 1 → s'.occurrences j Examples.newcomer = 0) :=
  addNewProcess_appends_to_tier0 Examples.busy Examples.newcomer (by decide) (by
    intro j
    match j with
    | 0 | 1 | 2 | 3 => decide
    | j + 4 => rfl)

/-- Counterexample to C6: an interrupt kind outside the vocabulary does not make
`handleInterrupt` fail; the call returns normally with the state it was given, so the process
it was handed is in no queue. -/
theorem handleInterrupt_unrecognised_counterexample :
    (¬ ∃ e : Fault,
      Examples.busy.handleInterrupt 3 Examples.busy.blockingQueue Examples.newcomer
        (SchedulerInterrupt.other "TIMER") = Except.error e) ∧
    Examples.busy.handleInterrupt 3 Examples.busy.blockingQueue Examples.newcomer
        (SchedulerInterrupt.other "TIMER") = Except.ok Examples.busy ∧
    ∀ j : Fin 4, Examples.busy.occurrences j Examples.newcomer = 0 := by
  refine ⟨?_, rfl, by decide⟩
  rintro ⟨e, he⟩
  cases he

/-- C6, amended: for an interrupt kind that is none of `PROCESS_BLOCKED`, `PROCESS_READY` and
`LOWER_PRIORITY`, `handleInterrupt` returns normally and leaves the scheduler as it was: no
queue receives the process and no error is signalled. -/
theorem handleInterrupt_unrecognised (PRIORITY_LEVELS : Nat) (s : Scheduler) (queue : Queue)
    (process : Process) (interrupt : SchedulerInterrupt)
    (hblocked : interrupt ≠ SchedulerInterrupt.PROCESS_BLOCKED)
    (hready : interrupt ≠ SchedulerInterrupt.PROCESS_READY)
    (hlower : interrupt ≠ SchedulerInterrupt.LOWER_PRIORITY) :
    s.handleInterrupt PRIORITY_LEVELS queue process interrupt = Except.ok s := by
  cases interrupt with
  | PROCESS_BLOCKED => exact absurd rfl hblocked
  | PROCESS_READY => exact absurd rfl hready
  | LOWER_PRIORITY => exact absurd rfl hlower
  | other tag => rfl

/-- Witness of C6, amended: the kind `"TERMINATED"` sent by the tier-0 queue of `busy`. -/
theorem handleInterrupt_unrecognised_witness :
    Examples.busy.handleInterrupt 3 ⟨10, 0, QueueType.CPU_QUEUE, [Examples.ioJob]⟩
      Examples.newcomer (SchedulerInterrupt.other "TERMINATED") = Except.ok Examples.busy :=
  handleInterrupt_unrecognised 3 Examples.busy ⟨10, 0, QueueType.CPU_QUEUE, [Examples.ioJob]⟩
    Examples.newcomer (SchedulerInterrupt.other "TERMINATED") (by decide) (by decide) (by decide)

/-- Counterexample to C7: an interrupt of a kind outside the vocabulary, sent by the blocking
queue of the well-formed scheduler `busy` for the process `newcomer`, which is in no queue,
returns with `busy` unchanged: afterwards the process is in no queue and the number of queued
processes has not grown, so the process is lost. -/
theorem handleInterrupt_conservation_counterexample :
    Examples.busy.WellFormed 3 ∧
    Examples.busy.blockingQueue ∈ Examples.busy.queues ∧
    (∀ j : Nat, Examples.busy.occurrences j Examples.newcomer = 0) ∧
    Examples.busy.handleInterrupt 3 Examples.busy.blockingQueue Examples.newcomer
        (SchedulerInterrupt.other "TIMER") = Except.ok Examples.busy ∧
    ¬ ∃ (s' : Scheduler) (d : Nat),
      Examples.busy.handleInterrupt 3 Examples.busy.blockingQueue Examples.newcomer
        (SchedulerInterrupt.other "TIMER") = Except.ok s' ∧
      s'.occurrences d Examples.newcomer = 1 ∧
      s'.totalQueued = Examples.busy.totalQueued + 1 := by
  have hfresh : ∀ j : Nat, Examples.busy.occurrences j Examples.newcomer = 0 := by
    intro j
    match j with
    | 0 | 1 | 2 | 3 => decide
    | j + 4 => rfl
  refine ⟨by decide, by decide, hfresh, rfl, ?_⟩
  rintro ⟨s', d, hcall, hone, -⟩
  have hsame : Examples.busy.handleInterrupt 3 Examples.busy.blockingQueue Examples.newcomer
      (SchedulerInterrupt.other "TIMER") = Except.ok Examples.busy := rfl
  rw [hsame] at hcall
  have hs' : Examples.busy = s' := Except.ok.inj hcall
  rw [← hs', hfresh d] at hone
  cases hone

/-- C7, amended: conservation during the routing of a recognised interrupt.  In a well-formed
scheduler with at least one tier, an interrupt of kind `PROCESS_BLOCKED`, `PROCESS_READY` or
`LOWER_PRIORITY` from a queue of the scheduler for a process that is in no queue returns
normally; afterwards the process occurs exactly once in exactly one queue, every other process
occurs in every queue as often as before, and the total number of queued processes has grown by
one. -/
theorem handleInterrupt_conservation (PRIORITY_LEVELS : Nat) (s : Scheduler) (queue : Queue)
    (process : Process) (interrupt : SchedulerInterrupt)
    (hwf : s.WellFormed PRIORITY_LEVELS) (hpos : 0 < PRIORITY_LEVELS)
    (hsource : queue ∈ s.queues)
    (hkind : ∀ tag : String, interrupt ≠ SchedulerInterrupt.other tag)
    (hfresh : ∀ j : Nat, s.occurrences j process = 0) :
    ∃ (s' : Scheduler) (d : Nat),
      s.handleInterrupt PRIORITY_LEVELS queue process interrupt = Except.ok s' ∧
      d < s'.queues.length ∧
      s'.occurrences d process = 1 ∧
      (∀ j : Nat, j ≠ d → s'.occurrences j process = 0) ∧
      (∀ other : Process, other ≠ process → ∀ j : Nat,
        s'.occurrences j other = s.occurrences j other) ∧
      s'.queues.length = s.queues.length ∧
      s'.totalQueued = s.totalQueued + 1 := by
  rcases Scheduler.handleInterrupt_routes PRIORITY_LEVELS s queue process interrupt hwf hpos
    hsource hkind with hcall | ⟨d, target, hd, hcall⟩
  · obtain ⟨hone, hzero, hothers, htotal⟩ :=
      Scheduler.conservation_enqueueBlocking s process hfresh
    exact ⟨_, 0, hcall, by simp [Scheduler.queues], hone, hzero, hothers,
      by simp [Scheduler.queues, Scheduler.enqueueBlocking], htotal⟩
  · obtain ⟨hone, hzero, hothers, htotal⟩ :=
      Scheduler.conservation_enqueueRunning s d target process hd hfresh
    have hlt : d < s.runningQueues.length := by
      by_contra hge
      rw [List.getElem?_eq_none (by omega)] at hd
      cases hd
    exact ⟨_, d + 1, hcall, by simp [Scheduler.queues, hlt], hone, hzero, hothers,
      by simp [Scheduler.queues], htotal⟩

/-- Witness of C7, amended: the tier-0 queue of `busy` demotes `newcomer`. -/
theorem handleInterrupt_conservation_witness :
    ∃ (s' : Scheduler) (d : Nat),
      Examples.busy.handleInterrupt 3 ⟨10, 0, QueueType.CPU_QUEUE, [Examples.ioJob]⟩
        Examples.newcomer SchedulerInterrupt.LOWER_PRIORITY = Except.ok s' ∧
      d < s'.queues.length ∧
      s'.occurrences d Examples.newcomer = 1 ∧
      (∀ j : Nat, j ≠ d → s'.occurrences j Examples.newcomer = 0) ∧
      (∀ other : Process, other ≠ Examples.newcomer → ∀ j : Nat,
        s'.occurrences j other = Examples.busy.occurrences j other) ∧
      s'.queues.length = Examples.busy.queues.length ∧
      s'.totalQueued = Examples.busy.totalQueued + 1 :=
  handleInterrupt_conservation 3 Examples.busy ⟨10, 0, QueueType.CPU_QUEUE, [Examples.ioJob]⟩
    Examples.newcomer SchedulerInterrupt.LOWER_PRIORITY (by decide) (by decide) (by decide)
    (by intro tag h; cases h) (by
      intro j
      match j with
      | 0 | 1 | 2 | 3 => decide
      | j + 4 => rfl)

/-- Counterexample to C8: `PROCESS_READY` with the tier-2 CPU queue of `busy` as its source
places the process into the CPU queue of tier 0, a tier of lower index than the source. -/
theorem handleInterrupt_ready_from_cpu_counterexample :
    ∃ (s' : Scheduler) (target : Queue),
      (⟨50, 2, QueueType.CPU_QUEUE, [Examples.cpuJob]⟩ : Queue) ∈ Examples.busy.runningQueues ∧
      (⟨50, 2, QueueType.CPU_QUEUE, [Examples.cpuJob]⟩ : Queue).getQueueType
        = QueueType.CPU_QUEUE ∧
      (⟨50, 2, QueueType.CPU_QUEUE, [Examples.cpuJob]⟩ : Queue).getPriorityLevel = 2 ∧
      Examples.busy.handleInterrupt 3 ⟨50, 2, QueueType.CPU_QUEUE, [Examples.cpuJob]⟩
        Examples.newcomer SchedulerInterrupt.PROCESS_READY = Except.ok s' ∧
      Examples.busy.runningQueues[0]? = some target ∧
      s'.runningQueues[0]? = some (target.enqueue Examples.newcomer) ∧
      ¬ ((2 : Int) ≤ ((0 : Nat) : Int)) :=
  ⟨_, _, by decide, rfl, rfl, rfl, rfl, rfl, by decide⟩

/-- C8, amended: when `handleInterrupt` is called with a CPU queue of tier `k` as source and
returns having enqueued the process into the CPU queue of tier `j`, then `k ≤ j` for every
interrupt kind other than `PROCESS_READY`, and `j = 0` for `PROCESS_READY`; so a tier of lower
index than the source is reached only by `PROCESS_READY`, and then it is tier 0. -/
theorem handleInterrupt_tier_monotone (PRIORITY_LEVELS : Nat) (s s' : Scheduler) (queue : Queue)
    (process : Process) (interrupt : SchedulerInterrupt) (k : Int) (j : Nat) (target : Queue)
    (htype : queue.getQueueType = QueueType.CPU_QUEUE)
    (hlevel : queue.getPriorityLevel = k)
    (hcall : s.handleInterrupt PRIORITY_LEVELS queue process interrupt = Except.ok s')
    (hbefore : s.runningQueues[j]? = some target)
    (hafter : s'.runningQueues[j]? = some (target.enqueue process)) :
    (interrupt ≠ SchedulerInterrupt.PROCESS_READY → k ≤ (j : Int)) ∧
    (interrupt = SchedulerInterrupt.PROCESS_READY → j = 0) ∧
    ((j : Int) < k → interrupt = SchedulerInterrupt.PROCESS_READY ∧ j = 0) := by
  have hsame : s'.runningQueues ≠ s.runningQueues := by
    intro h
    rw [h, hbefore] at hafter
    exact Queue.enqueue_ne target process (Option.some.inj hafter).symm
  have hplace : ∀ index : Int, s.enqueueRunning index process = Except.ok s' →
      index = (j : Int) := by
    intro index h
    obtain ⟨d, target', hindex, -, hs'⟩ := Scheduler.enqueueRunning_ok s s' index process h
    by_cases hdj : d = j
    · rw [hindex, hdj]
    · exfalso
      rw [hs'] at hafter
      simp only [List.getElem?_set, hdj, if_false, hbefore] at hafter
      exact Queue.enqueue_ne target process (Option.some.inj hafter).symm
  have key : (interrupt ≠ SchedulerInterrupt.PROCESS_READY → k ≤ (j : Int)) ∧
      (interrupt = SchedulerInterrupt.PROCESS_READY → j = 0) := by
    cases interrupt with
    | PROCESS_BLOCKED =>
      simp only [Scheduler.handleInterrupt, Except.ok.injEq] at hcall
      exact absurd (by rw [← hcall]; rfl) hsame
    | PROCESS_READY =>
      have := hplace 0 hcall
      exact ⟨fun h => absurd rfl h, fun _ => by omega⟩
    | LOWER_PRIORITY =>
      simp only [Scheduler.handleInterrupt, htype, hlevel, if_true] at hcall
      have := hplace _ hcall
      refine ⟨fun _ => ?_, fun h => by cases h⟩
      split at this <;> omega
    | other tag =>
      simp only [Scheduler.handleInterrupt, Except.ok.injEq] at hcall
      exact absurd (by rw [← hcall]) hsame
  refine ⟨key.1, key.2, fun hlt => ?_⟩
  by_cases hr : interrupt = SchedulerInterrupt.PROCESS_READY
  · exact ⟨hr, key.2 hr⟩
  · have := key.1 hr
    omega

/-- Witness of C8, amended: the tier-0 queue of `busy` demotes `newcomer` into tier 1. -/
theorem handleInterrupt_tier_monotone_witness :
    Examples.busy.handleInterrupt 3 ⟨10, 0, QueueType.CPU_QUEUE, [Examples.ioJob]⟩
        Examples.newcomer SchedulerInterrupt.LOWER_PRIORITY
      = Except.ok
        { Examples.busy with
          runningQueues := Examples.busy.runningQueues.set 1
            ((⟨30, 1, QueueType.CPU_QUEUE, []⟩ : Queue).enqueue Examples.newcomer) } ∧
    (SchedulerInterrupt.LOWER_PRIORITY ≠ SchedulerInterrupt.PROCESS_READY →
      (0 : Int) ≤ ((1 : Nat) : Int)) ∧
    (SchedulerInterrupt.LOWER_PRIORITY = SchedulerInterrupt.PROCESS_READY → 1 = 0) ∧
    (((1 : Nat) : Int) < 0 →
      SchedulerInterrupt.LOWER_PRIORITY = SchedulerInterrupt.PROCESS_READY ∧ 1 = 0) :=
  ⟨rfl, handleInterrupt_tier_monotone 3 Examples.busy
    { Examples.busy with
      runningQueues := Examples.busy.runningQueues.set 1
        ((⟨30, 1, QueueType.CPU_QUEUE, []⟩ : Queue).enqueue Examples.newcomer) }
    ⟨10, 0, QueueType.CPU_QUEUE, [Examples.ioJob]⟩ Examples.newcomer
    SchedulerInterrupt.LOWER_PRIORITY 0 1 ⟨30, 1, QueueType.CPU_QUEUE, []⟩ rfl rfl rfl rfl rfl⟩

/-! ## The dispatch loop -/

theorem Scheduler.allQueuesEmpty_iff (s : Scheduler) :
    s.allQueuesEmpty = true ↔ ∀ queue ∈ s.queues, queue.processes = [] := by
  simp [Scheduler.allQueuesEmpty, Scheduler.queues, Queue.isEmpty, List.isEmpty_iff]

theorem Scheduler.runLoop_of_empty (W : QueueWork) (now : Nat → Int) (bound fuel reads : Nat)
    (s : Scheduler) (done : List Iteration) (h : s.allQueuesEmpty = true) :
    Scheduler.runLoop W now bound fuel reads s done = Except.ok (s, done, reads) := by
  cases fuel <;> simp [Scheduler.runLoop, h]

theorem Scheduler.runLoop_of_not_empty (W : QueueWork) (now : Nat → Int)
    (bound fuel reads : Nat) (s : Scheduler) (done : List Iteration)
    (h : s.allQueuesEmpty = false) :
    Scheduler.runLoop W now bound (fuel + 1) reads s done =
      match Scheduler.iteration W bound (now reads - s.clock) s with
      | Except.error e => Except.error e
      | Except.ok (s', calls) =>
        Scheduler.runLoop W now bound fuel (reads + 1) s'
          (done ++ [⟨now reads - s.clock, calls⟩]) := by
  simp [Scheduler.runLoop, h]

theorem Scheduler.runLoop_out_of_fuel (W : QueueWork) (now : Nat → Int) (bound reads : Nat)
    (s : Scheduler) (done : List Iteration) (h : s.allQueuesEmpty = false) :
    Scheduler.runLoop W now bound 0 reads s done = Except.error Fault.fuelExhausted := by
  simp [Scheduler.runLoop, h]

/-- When the loop exits, every queue is empty, and the iterations it made were appended to the
record: none iff every queue was empty at the start. -/
theorem Scheduler.runLoop_ok (W : QueueWork) (now : Nat → Int) (bound : Nat) :
    ∀ (fuel reads : Nat) (s : Scheduler) (done : List Iteration) (s' : Scheduler)
      (done' : List Iteration) (reads' : Nat),
      Scheduler.runLoop W now bound fuel reads s done = Except.ok (s', done', reads') →
      s'.allQueuesEmpty = true ∧
      ∃ more : List Iteration, done' = done ++ more ∧ reads' = reads + more.length ∧
        (more = [] ↔ s.allQueuesEmpty = true) := by
  intro fuel
  induction fuel with
  | zero =>
    intro reads s done s' done' reads' h
    cases hs : s.allQueuesEmpty with
    | false => rw [Scheduler.runLoop_out_of_fuel W now bound reads s done hs] at h; cases h
    | true =>
      rw [Scheduler.runLoop_of_empty W now bound 0 reads s done hs] at h
      cases h
      exact ⟨hs, [], by simp, by simp, by simp⟩
  | succ fuel ih =>
    intro reads s done s' done' reads' h
    cases hs : s.allQueuesEmpty with
    | true =>
      rw [Scheduler.runLoop_of_empty W now bound _ reads s done hs] at h
      cases h
      exact ⟨hs, [], by simp, by simp, by simp⟩
    | false =>
      rw [Scheduler.runLoop_of_not_empty W now bound fuel reads s done hs] at h
      split at h
      · cases h
      · rename_i s1 calls hit
        obtain ⟨hempty, more, hmore, hreads, -⟩ := ih _ _ _ _ _ _ h
        refine ⟨hempty, ⟨now reads - s.clock, calls⟩ :: more, ?_, ?_, by simp⟩
        · rw [hmore]; simp
        · rw [hreads]; simp; omega

/-- C9: the termination condition of `run`.  `allQueuesEmpty` is true exactly when the blocking
queue and every CPU queue are empty; the loop exits at once when it is true and makes one more
iteration when it is false; called with every queue empty, `run` returns without any iteration
or work call and with the queues unchanged; and whenever `run` returns, every queue is empty and
it made no iteration exactly when every queue was empty at the call. -/
theorem run_termination_condition (W : QueueWork) (now : Nat → Int) (fuel : Nat)
    (s : Scheduler) :
    (s.allQueuesEmpty = true ↔
      s.blockingQueue.processes = [] ∧ ∀ queue ∈ s.runningQueues, queue.processes = []) ∧
    (∀ (bound n reads : Nat) (done : List Iteration), s.allQueuesEmpty = true →
      Scheduler.runLoop W now bound n reads s done = Except.ok (s, done, reads)) ∧
    (∀ (bound n reads : Nat) (done : List Iteration), s.allQueuesEmpty = false →
      Scheduler.runLoop W now bound (n + 1) reads s done =
        match Scheduler.iteration W bound (now reads - s.clock) s with
        | Except.error e => Except.error e
        | Except.ok (s', calls) =>
          Scheduler.runLoop W now bound n (reads + 1) s'
            (done ++ [⟨now reads - s.clock, calls⟩])) ∧
    (s.allQueuesEmpty = true →
      s.run W now fuel = Except.ok ({ s with clock := now 0 }, [])) ∧
    (∀ (s' : Scheduler) (iterations : List Iteration),
      s.run W now fuel = Except.ok (s', iterations) →
      s'.allQueuesEmpty = true ∧
      (∀ queue ∈ s'.queues, queue.processes = []) ∧
      (iterations = [] ↔ s.allQueuesEmpty = true)) := by
  refine ⟨?_, ?_, ?_, ?_, ?_⟩
  · simpa [Scheduler.queues] using Scheduler.allQueuesEmpty_iff s
  · intro bound n reads done h
    exact Scheduler.runLoop_of_empty W now bound n reads s done h
  · intro bound n reads done h
    exact Scheduler.runLoop_of_not_empty W now bound n reads s done h
  · intro h
    simp [Scheduler.run, Scheduler.runLoop_of_empty W now fuel fuel 0 s [] h]
  · intro s' iterations h
    unfold Scheduler.run at h
    split at h
    · cases h
    · rename_i s1 done reads hloop
      obtain ⟨hempty, more, hmore, -, hiff⟩ :=
        Scheduler.runLoop_ok W now fuel fuel 0 s [] s1 done reads hloop
      simp only [Except.ok.injEq, Prod.mk.injEq] at h
      obtain ⟨hs', hiterations⟩ := h
      have hempty' : s'.allQueuesEmpty = true := by rw [← hs']; exact hempty
      refine ⟨hempty', (Scheduler.allQueuesEmpty_iff _).mp hempty', ?_⟩
      rw [← hiterations, hmore]
      simpa using hiff

/-- Witness of C9: `run` on `admitted` returns after two iterations with every queue empty. -/
theorem run_termination_condition_witness :
    ∃ (final : Scheduler) (iterations : List Iteration),
      Examples.admitted.run (Queue.work 3) Examples.readings 5
        = Except.ok (final, iterations) ∧
      iterations.length = 2 ∧
      final.allQueuesEmpty = true ∧
      (∀ queue ∈ final.queues, queue.processes = []) ∧
      (iterations = [] ↔ Examples.admitted.allQueuesEmpty = true) :=
  ⟨_, _, rfl, rfl,
    (run_termination_condition (Queue.work 3) Examples.readings 5 Examples.admitted).2.2.2.2
      _ _ rfl⟩

/-! ## The timeslice -/

theorem Scheduler.cpuLoop_clock (W : QueueWork) (hW : W.PreservesClock) (timeslice : Int) :
    ∀ (fuel i : Nat) (s : Scheduler) (calls : List WorkCall) (s' : Scheduler)
      (calls' : List WorkCall),
      Scheduler.cpuLoop W timeslice fuel i s calls = Except.ok (s', calls') →
      s'.clock = s.clock := by
  intro fuel
  induction fuel with
  | zero =>
    intro i s calls s' calls' h
    unfold Scheduler.cpuLoop at h
    split at h
    · cases h; rfl
    · cases h
  | succ fuel ih =>
    intro i s calls s' calls' h
    unfold Scheduler.cpuLoop at h
    split at h
    · cases h; rfl
    · simp only at h
      split at h
      · split at h
        · cases h
        · rename_i s1 hwork
          rw [ih _ _ _ _ _ h]
          exact hW.2 s s1 i timeslice hwork
      · exact ih _ _ _ _ _ h

theorem Scheduler.iteration_clock (W : QueueWork) (hW : W.PreservesClock) (bound : Nat)
    (timeslice : Int) (s s' : Scheduler) (calls : List WorkCall)
    (h : Scheduler.iteration W bound timeslice s = Except.ok (s', calls)) :
    s'.clock = s.clock := by
  unfold Scheduler.iteration at h
  split at h
  · split at h
    · cases h
    · rename_i s1 hwork
      rw [Scheduler.cpuLoop_clock W hW timeslice _ _ _ _ _ _ h]
      exact hW.1 s s1 timeslice hwork
  · exact Scheduler.cpuLoop_clock W hW timeslice _ _ _ _ _ _ h

/-- The state `admitted` is the freshly constructed three-tier scheduler after
`addNewProcess(ioJob)`. -/
theorem Examples.admitted_reached :
    Examples.fresh.addNewProcess Examples.ioJob = Except.ok Examples.admitted :=
  rfl

/-- With work primitives that leave the clock alone, the loop never changes the clock, and the
`n`-th iteration it records has as timeslice the `n`-th reading minus the clock value the loop
started with. -/
theorem Scheduler.runLoop_timeslices (W : QueueWork) (hW : W.PreservesClock) (now : Nat → Int)
    (bound : Nat) :
    ∀ (fuel reads : Nat) (s : Scheduler) (done : List Iteration) (s' : Scheduler)
      (done' : List Iteration) (reads' : Nat),
      Scheduler.runLoop W now bound fuel reads s done = Except.ok (s', done', reads') →
      s'.clock = s.clock ∧
      ∃ more : List Iteration, done' = done ++ more ∧ reads' = reads + more.length ∧
        ∀ n : Fin more.length, (more.get n).timeslice = now (reads + n) - s.clock := by
  intro fuel
  induction fuel with
  | zero =>
    intro reads s done s' done' reads' h
    cases hs : s.allQueuesEmpty with
    | false => rw [Scheduler.runLoop_out_of_fuel W now bound reads s done hs] at h; cases h
    | true =>
      rw [Scheduler.runLoop_of_empty W now bound 0 reads s done hs] at h
      cases h
      exact ⟨rfl, [], by simp, by simp, fun n => n.elim0⟩
  | succ fuel ih =>
    intro reads s done s' done' reads' h
    cases hs : s.allQueuesEmpty with
    | true =>
      rw [Scheduler.runLoop_of_empty W now bound _ reads s done hs] at h
      cases h
      exact ⟨rfl, [], by simp, by simp, fun n => n.elim0⟩
    | false =>
      rw [Scheduler.runLoop_of_not_empty W now bound fuel reads s done hs] at h
      split at h
      · cases h
      · rename_i s1 calls hit
        have hclock := Scheduler.iteration_clock W hW bound _ s s1 calls hit
        obtain ⟨hfinal, more, hmore, hreads, hslices⟩ := ih _ _ _ _ _ _ h
        refine ⟨hfinal.trans hclock, ⟨now reads - s.clock, calls⟩ :: more, ?_, ?_, ?_⟩
        · rw [hmore]; simp
        · rw [hreads]; simp; omega
        · intro n
          refine Fin.cases ?_ (fun m => ?_) n
          · simp
          · have := hslices m
            simp only [List.get_eq_getElem] at this
            simp only [List.length_cons, List.get_eq_getElem, Fin.val_succ,
              List.getElem_cons_succ, this, hclock]
            congr 2
            omega

/-- What `run` hands to the queues: with work primitives that leave the clock alone, iteration
`n` (counted from 0) of a call of `run` receives the `n`-th reading of `Date.now()` minus the
clock value at the call; the clock is written once, after the loop. -/
theorem Scheduler.run_timeslices (W : QueueWork) (hW : W.PreservesClock) (now : Nat → Int)
    (fuel : Nat) (s s' : Scheduler) (iterations : List Iteration)
    (h : s.run W now fuel = Except.ok (s', iterations)) :
    s'.clock = now iterations.length ∧
    ∀ n : Fin iterations.length, (iterations.get n).timeslice = now n - s.clock := by
  unfold Scheduler.run at h
  split at h
  · cases h
  · rename_i s1 done reads hloop
    obtain ⟨-, more, hmore, hreads, hslices⟩ :=
      Scheduler.runLoop_timeslices W hW now fuel fuel 0 s [] s1 done reads hloop
    simp only [Except.ok.injEq, Prod.mk.injEq] at h
    obtain ⟨hs', hiterations⟩ := h
    simp only [List.nil_append] at hmore
    subst hmore
    subst hiterations
    subst hs'
    refine ⟨by simp [hreads], fun n => ?_⟩
    simpa using hslices n

theorem Scheduler.enqueueRunning_clock (s s' : Scheduler) (index : Int) (process : Process)
    (h : s.enqueueRunning index process = Except.ok s') : s'.clock = s.clock := by
  obtain ⟨d, target, -, -, hs'⟩ := Scheduler.enqueueRunning_ok s s' index process h
  rw [hs']

/-- The interrupt handler does not touch the clock. -/
theorem Scheduler.handleInterrupt_clock (PRIORITY_LEVELS : Nat) (s s' : Scheduler)
    (queue : Queue) (process : Process) (interrupt : SchedulerInterrupt)
    (h : s.handleInterrupt PRIORITY_LEVELS queue process interrupt = Except.ok s') :
    s'.clock = s.clock := by
  cases interrupt with
  | PROCESS_BLOCKED => cases h; rfl
  | PROCESS_READY => exact Scheduler.enqueueRunning_clock s s' 0 process h
  | LOWER_PRIORITY =>
    unfold Scheduler.handleInterrupt at h
    simp only at h
    split at h
    · exact Scheduler.enqueueRunning_clock s s' _ process h
    · cases h; rfl
  | other tag => cases h; rfl

/-- The work primitives modelled from the spec leave the clock alone. -/
theorem Queue.work_preservesClock (PRIORITY_LEVELS : Nat) :
    (Queue.work PRIORITY_LEVELS).PreservesClock := by
  constructor
  · intro s s' timeslice h
    simp only [Queue.work, Queue.doBlockingWork] at h
    split at h
    · cases h
    · split at h <;> exact (Scheduler.handleInterrupt_clock _ _ _ _ _ _ h).trans rfl
  · intro s s' i timeslice h
    simp only [Queue.work, Queue.doCPUWork] at h
    split at h
    · cases h
    · split at h
      · cases h
      · split at h
        · split at h
          · cases h; rfl
          · exact (Scheduler.handleInterrupt_clock _ _ _ _ _ _ h).trans rfl
        · exact (Scheduler.handleInterrupt_clock _ _ _ _ _ _ h).trans rfl

/-- C10: the timeslice of the second iteration.  `run` on `admitted` (clock 0 at construction)
with `Date.now()` reading 100 in the first iteration and 130 in the second hands the queues
timeslice 100 and then 130, the time since construction, and not 30, the time since the first
iteration; the clock is still 0 at every work call. -/
theorem run_timeslice_not_since_last_iteration :
    ∃ (final : Scheduler) (iterations : List Iteration),
      Examples.admitted.run (Queue.work 3) Examples.readings 5
        = Except.ok (final, iterations) ∧
      Examples.admitted.clock = 0 ∧
      Examples.readings 0 = 100 ∧
      Examples.readings 1 = 130 ∧
      iterations.map (fun iteration => iteration.timeslice) = [100 - 0, 130 - 0] ∧
      iterations.map (fun iteration => iteration.timeslice) ≠ [100 - 0, 130 - 100] ∧
      (∀ iteration ∈ iterations, ∀ call ∈ iteration.calls,
        call.timeslice = iteration.timeslice ∧ call.pre.clock = 0) ∧
      final.clock = 170 :=
  ⟨_, _, rfl, rfl, rfl, rfl, rfl, by decide, by decide, rfl⟩

/-! ## The constructor -/

theorem Scheduler.constructor_getElem? (PRIORITY_LEVELS : Nat) (now : Int) (i : Nat)
    (hi : i < PRIORITY_LEVELS) :
    (Scheduler.constructor PRIORITY_LEVELS now).runningQueues[i]?
      = some ⟨10 + i * 20, (i : Int), QueueType.CPU_QUEUE, []⟩ := by
  simp [Scheduler.constructor, List.getElem?_map, List.getElem?_range hi]

theorem Scheduler.constructor_length (PRIORITY_LEVELS : Nat) (now : Int) :
    (Scheduler.constructor PRIORITY_LEVELS now).runningQueues.length = PRIORITY_LEVELS := by
  simp [Scheduler.constructor]

/-- The constructor establishes the shape `WellFormed`. -/
theorem Scheduler.constructor_wellFormed (PRIORITY_LEVELS : Nat) (now : Int) :
    (Scheduler.constructor PRIORITY_LEVELS now).WellFormed PRIORITY_LEVELS := by
  refine ⟨rfl, Scheduler.constructor_length PRIORITY_LEVELS now, fun i => ?_⟩
  simp [Scheduler.constructor]

/-- C12: in a freshly constructed scheduler the CPU queue of tier `i` has quantum `10 + 20 * i`,
so the quanta strictly increase with the tier index; the tier-0 quantum is 10 and the tier-1
quantum is 30. -/
theorem constructor_quanta (PRIORITY_LEVELS : Nat) (now : Int) :
    (∀ i : Nat, i < PRIORITY_LEVELS →
      ∃ queue : Queue,
        (Scheduler.constructor PRIORITY_LEVELS now).runningQueues[i]? = some queue ∧
        queue.quantum = 10 + 20 * i) ∧
    (∀ i j : Nat, i < j → j < PRIORITY_LEVELS →
      ∃ lower higher : Queue,
        (Scheduler.constructor PRIORITY_LEVELS now).runningQueues[i]? = some lower ∧
        (Scheduler.constructor PRIORITY_LEVELS now).runningQueues[j]? = some higher ∧
        lower.quantum < higher.quantum) ∧
    (0 < PRIORITY_LEVELS →
      ((Scheduler.constructor PRIORITY_LEVELS now).runningQueues[0]?).map Queue.quantum
        = some 10) ∧
    (1 < PRIORITY_LEVELS →
      ((Scheduler.constructor PRIORITY_LEVELS now).runningQueues[1]?).map Queue.quantum
        = some 30) := by
  refine ⟨?_, ?_, ?_, ?_⟩
  · intro i hi
    exact ⟨_, Scheduler.constructor_getElem? PRIORITY_LEVELS now i hi, by simp; omega⟩
  · intro i j hij hj
    exact ⟨_, _, Scheduler.constructor_getElem? PRIORITY_LEVELS now i (by omega),
      Scheduler.constructor_getElem? PRIORITY_LEVELS now j hj, by simp; omega⟩
  · intro h
    rw [Scheduler.constructor_getElem? PRIORITY_LEVELS now 0 h]
    rfl
  · intro h
    rw [Scheduler.constructor_getElem? PRIORITY_LEVELS now 1 h]
    rfl

/-- Witness of C12: three tiers have the quanta 10, 30 and 50. -/
theorem constructor_quanta_witness :
    (Examples.fresh.runningQueues.map Queue.quantum = [10, 30, 50]) ∧
    (∃ lower higher : Queue,
      (Scheduler.constructor 3 0).runningQueues[1]? = some lower ∧
      (Scheduler.constructor 3 0).runningQueues[2]? = some higher ∧
      lower.quantum < higher.quantum) ∧
    ((Scheduler.constructor 3 0).runningQueues[0]?).map Queue.quantum = some 10 ∧
    ((Scheduler.constructor 3 0).runningQueues[1]?).map Queue.quantum = some 30 :=
  ⟨by decide, (constructor_quanta 3 0).2.1 1 2 (by decide) (by decide),
    (constructor_quanta 3 0).2.2.1 (by decide), (constructor_quanta 3 0).2.2.2 (by decide)⟩

/-- C16: a freshly constructed scheduler has one blocking queue, of blocking kind, budget 50
and no process, and exactly `PRIORITY_LEVELS` CPU queues, all of CPU kind.  In every scheduler
state `_getBlockingQueue()` is the blocking queue of that state and `_getCPUQueue(i)` is entry
`i` of its CPU queues (`undefined` for a negative index or one past the end), and both accessors
return with the state they were called in.  So on the fresh scheduler `_getCPUQueue(i)` is for
`0 ≤ i < PRIORITY_LEVELS` the empty queue of CPU kind, priority level `i` and quantum
`10 + 20 * i`, and for any other index `undefined`. -/
theorem constructor_and_accessors (PRIORITY_LEVELS : Nat) (now : Int) :
    ((Scheduler.constructor PRIORITY_LEVELS now)._getBlockingQueue).1
      = (Scheduler.constructor PRIORITY_LEVELS now).blockingQueue ∧
    ((Scheduler.constructor PRIORITY_LEVELS now)._getBlockingQueue).1.getQueueType
      = QueueType.BLOCKING_QUEUE ∧
    ((Scheduler.constructor PRIORITY_LEVELS now)._getBlockingQueue).1.quantum = 50 ∧
    (∀ queue ∈ (Scheduler.constructor PRIORITY_LEVELS now).runningQueues,
      queue.getQueueType = QueueType.CPU_QUEUE) ∧
    (Scheduler.constructor PRIORITY_LEVELS now).runningQueues.length = PRIORITY_LEVELS ∧
    (∀ i : Int, 0 ≤ i → i < (PRIORITY_LEVELS : Int) →
      ∃ queue : Queue,
        ((Scheduler.constructor PRIORITY_LEVELS now)._getCPUQueue i).1 = some queue ∧
        queue.getQueueType = QueueType.CPU_QUEUE ∧
        queue.getPriorityLevel = i) ∧
    (∀ i : Int, (i < 0 ∨ (PRIORITY_LEVELS : Int) ≤ i) →
      ((Scheduler.constructor PRIORITY_LEVELS now)._getCPUQueue i).1 = none) ∧
    (∀ (s : Scheduler) (i : Int), (s._getCPUQueue i).2 = s ∧ (s._getBlockingQueue).2 = s) ∧
    (∀ s : Scheduler, (s._getBlockingQueue).1 = s.blockingQueue) ∧
    (∀ (s : Scheduler) (i : Nat), (s._getCPUQueue (i : Int)).1 = s.runningQueues[i]?) ∧
    (∀ (s : Scheduler) (i : Int), i < 0 → (s._getCPUQueue i).1 = none) ∧
    (∀ (s : Scheduler) (i : Int), (s.runningQueues.length : Int) ≤ i →
      (s._getCPUQueue i).1 = none) ∧
    ((Scheduler.constructor PRIORITY_LEVELS now)._getBlockingQueue).1
      = ⟨50, 0, QueueType.BLOCKING_QUEUE, []⟩ ∧
    (∀ i : Nat, i < PRIORITY_LEVELS →
      ((Scheduler.constructor PRIORITY_LEVELS now)._getCPUQueue (i : Int)).1
        = some ⟨10 + 20 * i, (i : Int), QueueType.CPU_QUEUE, []⟩) := by
  have hnat : ∀ (s : Scheduler) (i : Nat), (s._getCPUQueue (i : Int)).1 = s.runningQueues[i]? :=
    fun s i => Scheduler.runningQueueAt_natCast s i
  have hneg : ∀ (s : Scheduler) (i : Int), i < 0 → (s._getCPUQueue i).1 = none := by
    intro s i hi
    have : ¬ 0 ≤ i := by omega
    simp [Scheduler._getCPUQueue, Scheduler.runningQueueAt, this]
  have hpast : ∀ (s : Scheduler) (i : Int), (s.runningQueues.length : Int) ≤ i →
      (s._getCPUQueue i).1 = none := by
    intro s i hi
    have h0 : 0 ≤ i := by omega
    obtain ⟨n, rfl⟩ := Int.eq_ofNat_of_zero_le h0
    rw [hnat]
    exact List.getElem?_eq_none (by omega)
  refine ⟨rfl, rfl, rfl, ?_, Scheduler.constructor_length PRIORITY_LEVELS now, ?_, ?_,
    fun s i => ⟨rfl, rfl⟩, fun s => rfl, hnat, hneg, hpast, rfl, ?_⟩
  · intro queue hq
    simp only [Scheduler.constructor, List.mem_map, List.mem_range] at hq
    obtain ⟨i, -, rfl⟩ := hq
    rfl
  · intro i h0 hi
    obtain ⟨n, rfl⟩ := Int.eq_ofNat_of_zero_le h0
    have hn : n < PRIORITY_LEVELS := by omega
    refine ⟨⟨10 + n * 20, (n : Int), QueueType.CPU_QUEUE, []⟩, ?_, rfl, rfl⟩
    rw [hnat]
    exact Scheduler.constructor_getElem? PRIORITY_LEVELS now n hn
  · intro i hi
    rcases hi with hi | hi
    · exact hneg _ i hi
    · exact hpast _ i (by rw [Scheduler.constructor_length]; exact hi)
  · intro i hi
    rw [hnat, Scheduler.constructor_getElem? PRIORITY_LEVELS now i hi, Nat.mul_comm]

/-- Witness of C16: the accessors on the fresh three-tier scheduler and on `busy`, whose queues
hold processes. -/
theorem constructor_and_accessors_witness :
    (∃ queue : Queue,
      ((Scheduler.constructor 3 0)._getCPUQueue 2).1 = some queue ∧
      queue.getQueueType = QueueType.CPU_QUEUE ∧
      queue.getPriorityLevel = 2) ∧
    ((Scheduler.constructor 3 0)._getCPUQueue 3).1 = none ∧
    ((Scheduler.constructor 3 0)._getCPUQueue (-1)).1 = none ∧
    ((Scheduler.constructor 3 0)._getCPUQueue ((1 : Nat) : Int)).1
      = some ⟨10 + 20 * 1, ((1 : Nat) : Int), QueueType.CPU_QUEUE, []⟩ ∧
    (Examples.busy._getBlockingQueue).1 = ⟨50, 0, QueueType.BLOCKING_QUEUE, [⟨3, 0, 60⟩]⟩ ∧
    (Examples.busy._getCPUQueue ((2 : Nat) : Int)).1
      = some ⟨50, 2, QueueType.CPU_QUEUE, [Examples.cpuJob]⟩ ∧
    (Examples.busy._getCPUQueue 2).2 = Examples.busy ∧
    (Examples.busy._getBlockingQueue).2 = Examples.busy :=
  ⟨(constructor_and_accessors 3 0).2.2.2.2.2.1 2 (by decide) (by decide),
    (constructor_and_accessors 3 0).2.2.2.2.2.2.1 3 (by decide),
    (constructor_and_accessors 3 0).2.2.2.2.2.2.1 (-1) (by decide),
    (constructor_and_accessors 3 0).2.2.2.2.2.2.2.2.2.2.2.2.2 1 (by decide),
    (constructor_and_accessors 3 0).2.2.2.2.2.2.2.2.1 Examples.busy,
    (constructor_and_accessors 3 0).2.2.2.2.2.2.2.2.2.1 Examples.busy 2,
    ((constructor_and_accessors 3 0).2.2.2.2.2.2.2.1 Examples.busy 2).1,
    ((constructor_and_accessors 3 0).2.2.2.2.2.2.2.1 Examples.busy 2).2⟩

/-! ## What a returning call has done -/

/-- The effect of a call of `handleInterrupt` that returns: nothing, or the process enqueued
into the blocking queue, or the process enqueued into one CPU queue. -/
theorem Scheduler.handleInterrupt_ok (PRIORITY_LEVELS : Nat) (s s' : Scheduler) (queue : Queue)
    (process : Process) (interrupt : SchedulerInterrupt)
    (h : s.handleInterrupt PRIORITY_LEVELS queue process interrupt = Except.ok s') :
    ((∃ tag : String, interrupt = SchedulerInterrupt.other tag) ∧ s' = s) ∨
    ((∀ tag : String, interrupt ≠ SchedulerInterrupt.other tag) ∧
      s' = s.enqueueBlocking process) ∨
    ((∀ tag : String, interrupt ≠ SchedulerInterrupt.other tag) ∧
      ∃ (d : Nat) (target : Queue), s.runningQueues[d]? = some target ∧
        s' = { s with runningQueues := s.runningQueues.set d (target.enqueue process) }) := by
  cases interrupt with
  | PROCESS_BLOCKED =>
    cases h
    exact Or.inr (Or.inl ⟨(fun tag hc => nomatch hc), rfl⟩)
  | PROCESS_READY =>
    obtain ⟨d, target, -, hd, hs'⟩ := Scheduler.enqueueRunning_ok s s' 0 process h
    exact Or.inr (Or.inr ⟨(fun tag hc => nomatch hc), d, target, hd, hs'⟩)
  | LOWER_PRIORITY =>
    unfold Scheduler.handleInterrupt at h
    simp only at h
    split at h
    · obtain ⟨d, target, -, hd, hs'⟩ := Scheduler.enqueueRunning_ok s s' _ process h
      exact Or.inr (Or.inr ⟨(fun tag hc => nomatch hc), d, target, hd, hs'⟩)
    · cases h
      exact Or.inr (Or.inl ⟨(fun tag hc => nomatch hc), rfl⟩)
  | other tag =>
    cases h
    exact Or.inl ⟨⟨tag, rfl⟩, rfl⟩

theorem map_config_set (queues : List Queue) (d : Nat) (target : Queue) (process : Process)
    (h : queues[d]? = some target) :
    (queues.set d (target.enqueue process)).map Queue.config = queues.map Queue.config := by
  induction queues generalizing d with
  | nil => simp
  | cons q rest ih =>
    cases d with
    | zero =>
      simp only [List.getElem?_cons_zero, Option.some.injEq] at h
      subst h
      simp [Queue.enqueue, Queue.config]
    | succ d =>
      simp only [List.getElem?_cons_succ] at h
      simp only [List.set_cons_succ, List.map_cons, ih d h]

/-- What enqueueing into the CPU queue of tier `d` does to the queues of a scheduler. -/
theorem Scheduler.queues_enqueueRunning (s : Scheduler) (d : Nat) (target : Queue)
    (process : Process) (hd : s.runningQueues[d]? = some target) :
    ({ s with runningQueues := s.runningQueues.set d (target.enqueue process) } :
        Scheduler).queues[d + 1]? = some (target.enqueue process) ∧
    ∀ j : Nat, j ≠ d + 1 →
      ({ s with runningQueues := s.runningQueues.set d (target.enqueue process) } :
        Scheduler).queues[j]? = s.queues[j]? := by
  have hlt : d < s.runningQueues.length := by
    by_contra hge
    rw [List.getElem?_eq_none (by omega)] at hd
    cases hd
  refine ⟨by simp [Scheduler.queues, hlt], fun j hj => ?_⟩
  cases j with
  | zero => simp [Scheduler.queues]
  | succ j =>
    have : d ≠ j := by omega
    simp [Scheduler.queues, List.getElem?_set, this]

/-- C18: index safety of demotion.  For a source queue of CPU kind whose tier `k` satisfies
`0 ≤ k < PRIORITY_LEVELS` (so `PRIORITY_LEVELS ≥ 1`), the index `handleInterrupt` uses for a
`LOWER_PRIORITY` interrupt lies in `[0, PRIORITY_LEVELS - 1]`; with the `PRIORITY_LEVELS` queues
the constructor makes, `runningQueues[index]` is a queue and the call returns. -/
theorem demotion_index_in_bounds (PRIORITY_LEVELS : Nat) (s : Scheduler) (queue : Queue)
    (process : Process) (k : Int)
    (hlen : s.runningQueues.length = PRIORITY_LEVELS)
    (htype : queue.getQueueType = QueueType.CPU_QUEUE)
    (hlevel : queue.getPriorityLevel = k) (h0 : 0 ≤ k) (hk : k < (PRIORITY_LEVELS : Int)) :
    1 ≤ PRIORITY_LEVELS ∧
    s.handleInterrupt PRIORITY_LEVELS queue process SchedulerInterrupt.LOWER_PRIORITY
      = s.enqueueRunning (Scheduler.demotionIndex PRIORITY_LEVELS queue) process ∧
    0 ≤ Scheduler.demotionIndex PRIORITY_LEVELS queue ∧
    Scheduler.demotionIndex PRIORITY_LEVELS queue ≤ (PRIORITY_LEVELS : Int) - 1 ∧
    (∃ target : Queue,
      s.runningQueueAt (Scheduler.demotionIndex PRIORITY_LEVELS queue) = some target) ∧
    (∃ s' : Scheduler,
      s.handleInterrupt PRIORITY_LEVELS queue process SchedulerInterrupt.LOWER_PRIORITY
        = Except.ok s') ∧
    (∀ e : Fault,
      s.handleInterrupt PRIORITY_LEVELS queue process SchedulerInterrupt.LOWER_PRIORITY
        ≠ Except.error e) := by
  have hcall : s.handleInterrupt PRIORITY_LEVELS queue process SchedulerInterrupt.LOWER_PRIORITY
      = s.enqueueRunning (Scheduler.demotionIndex PRIORITY_LEVELS queue) process := by
    simp only [Scheduler.handleInterrupt, Scheduler.demotionIndex, htype, if_true]
  have hlow : 0 ≤ Scheduler.demotionIndex PRIORITY_LEVELS queue := by
    simp only [Scheduler.demotionIndex, hlevel]
    split <;> omega
  have hhigh : Scheduler.demotionIndex PRIORITY_LEVELS queue ≤ (PRIORITY_LEVELS : Int) - 1 := by
    simp only [Scheduler.demotionIndex, hlevel]
    split <;> omega
  obtain ⟨d, hd⟩ := Int.eq_ofNat_of_zero_le hlow
  have hdlt : d < s.runningQueues.length := by omega
  have hget : s.runningQueues[d]? = some s.runningQueues[d] := List.getElem?_eq_getElem hdlt
  have hok := Scheduler.enqueueRunning_of_getElem? s d process _ hget
  rw [← hd, ← hcall] at hok
  refine ⟨by omega, hcall, hlow, hhigh, ⟨s.runningQueues[d], ?_⟩, ⟨_, hok⟩, ?_⟩
  · rw [hd, Scheduler.runningQueueAt_natCast]
    exact hget
  · intro e he
    rw [hok] at he
    cases he

/-- Witness of C18: the lowest tier of `busy` demotes into itself, index 2 of 3. -/
theorem demotion_index_in_bounds_witness :
    1 ≤ 3 ∧
    Examples.busy.handleInterrupt 3 ⟨50, 2, QueueType.CPU_QUEUE, [Examples.cpuJob]⟩
        Examples.newcomer SchedulerInterrupt.LOWER_PRIORITY
      = Examples.busy.enqueueRunning
        (Scheduler.demotionIndex 3 ⟨50, 2, QueueType.CPU_QUEUE, [Examples.cpuJob]⟩)
        Examples.newcomer ∧
    0 ≤ Scheduler.demotionIndex 3 ⟨50, 2, QueueType.CPU_QUEUE, [Examples.cpuJob]⟩ ∧
    Scheduler.demotionIndex 3 ⟨50, 2, QueueType.CPU_QUEUE, [Examples.cpuJob]⟩
      ≤ ((3 : Nat) : Int) - 1 ∧
    (∃ target : Queue,
      Examples.busy.runningQueueAt
        (Scheduler.demotionIndex 3 ⟨50, 2, QueueType.CPU_QUEUE, [Examples.cpuJob]⟩)
        = some target) ∧
    (∃ s' : Scheduler,
      Examples.busy.handleInterrupt 3 ⟨50, 2, QueueType.CPU_QUEUE, [Examples.cpuJob]⟩
        Examples.newcomer SchedulerInterrupt.LOWER_PRIORITY = Except.ok s') ∧
    (∀ e : Fault,
      Examples.busy.handleInterrupt 3 ⟨50, 2, QueueType.CPU_QUEUE, [Examples.cpuJob]⟩
        Examples.newcomer SchedulerInterrupt.LOWER_PRIORITY ≠ Except.error e) :=
  demotion_index_in_bounds 3 Examples.busy ⟨50, 2, QueueType.CPU_QUEUE, [Examples.cpuJob]⟩
    Examples.newcomer 2 (by decide) rfl rfl (by decide) (by decide)

/-- The effect of a returning call of `addNewProcess` or `handleInterrupt`, without the
interrupt kind. -/
theorem Scheduler.call_ok (PRIORITY_LEVELS : Nat) (s s' : Scheduler) (queue : Queue)
    (process : Process) (interrupt : SchedulerInterrupt)
    (h : s.addNewProcess process = Except.ok s' ∨
      s.handleInterrupt PRIORITY_LEVELS queue process interrupt = Except.ok s') :
    s' = s ∨ s' = s.enqueueBlocking process ∨
    ∃ (d : Nat) (target : Queue), s.runningQueues[d]? = some target ∧
      s' = { s with runningQueues := s.runningQueues.set d (target.enqueue process) } := by
  rcases h with h | h
  · obtain ⟨d, target, -, hd, hs'⟩ := Scheduler.enqueueRunning_ok s s' 0 process h
    exact Or.inr (Or.inr ⟨d, target, hd, hs'⟩)
  · rcases Scheduler.handleInterrupt_ok PRIORITY_LEVELS s s' queue process interrupt h with
      ⟨-, h1⟩ | ⟨-, h2⟩ | ⟨-, h3⟩
    · exact Or.inl h1
    · exact Or.inr (Or.inl h2)
    · exact Or.inr (Or.inr h3)

/-- C17: the configuration invariant.  A call of `addNewProcess` or `handleInterrupt` that
returns leaves the number of CPU queues (so `PRIORITY_LEVELS`, when it was that), the clock and
the kind, tier index and quantum of every queue as they were; at most one queue differs from
before, and it differs only in that the process was enqueued into it. -/
theorem configuration_preserved (PRIORITY_LEVELS : Nat) (s s' : Scheduler) (queue : Queue)
    (process : Process) (interrupt : SchedulerInterrupt)
    (hcall : s.addNewProcess process = Except.ok s' ∨
      s.handleInterrupt PRIORITY_LEVELS queue process interrupt = Except.ok s') :
    s'.runningQueues.length = s.runningQueues.length ∧
    (s.runningQueues.length = PRIORITY_LEVELS → s'.runningQueues.length = PRIORITY_LEVELS) ∧
    s'.clock = s.clock ∧
    s'.queues.map Queue.config = s.queues.map Queue.config ∧
    ∃ d : Nat,
      (∀ j : Nat, j ≠ d → s'.queues[j]? = s.queues[j]?) ∧
      (s'.queues[d]? = s.queues[d]? ∨
        ∃ target : Queue, s.queues[d]? = some target ∧
          s'.queues[d]? = some (target.enqueue process)) := by
  have hlen : s'.runningQueues.length = s.runningQueues.length := by
    rcases Scheduler.call_ok PRIORITY_LEVELS s s' queue process interrupt hcall with
      rfl | rfl | ⟨d, target, -, rfl⟩
    · rfl
    · rfl
    · simp
  refine ⟨hlen, fun h => hlen.trans h, ?_, ?_, ?_⟩
  · rcases Scheduler.call_ok PRIORITY_LEVELS s s' queue process interrupt hcall with
      rfl | rfl | ⟨d, target, -, rfl⟩ <;> rfl
  · rcases Scheduler.call_ok PRIORITY_LEVELS s s' queue process interrupt hcall with
      rfl | rfl | ⟨d, target, hd, rfl⟩
    · rfl
    · simp [Scheduler.queues, Scheduler.enqueueBlocking, Queue.enqueue, Queue.config]
    · simp only [Scheduler.queues, List.map_cons,
        map_config_set s.runningQueues d target process hd]
  · rcases Scheduler.call_ok PRIORITY_LEVELS s s' queue process interrupt hcall with
      rfl | rfl | ⟨d, target, hd, rfl⟩
    · exact ⟨0, fun j _ => rfl, Or.inl rfl⟩
    · refine ⟨0, fun j hj => ?_, Or.inr ⟨s.blockingQueue, by simp [Scheduler.queues],
        by simp [Scheduler.queues, Scheduler.enqueueBlocking]⟩⟩
      obtain ⟨j, rfl⟩ := Nat.exists_eq_succ_of_ne_zero hj
      simp [Scheduler.queues, Scheduler.enqueueBlocking]
    · obtain ⟨hdest, hframe⟩ := Scheduler.queues_enqueueRunning s d target process hd
      exact ⟨d + 1, hframe, Or.inr ⟨target, by simpa [Scheduler.queues] using hd, hdest⟩⟩

/-- Witness of C17: `newcomer` is admitted to `busy`. -/
theorem configuration_preserved_witness :
    ∃ s' : Scheduler,
      Examples.busy.addNewProcess Examples.newcomer = Except.ok s' ∧
      s'.runningQueues.length = Examples.busy.runningQueues.length ∧
      (Examples.busy.runningQueues.length = 3 → s'.runningQueues.length = 3) ∧
      s'.clock = Examples.busy.clock ∧
      s'.queues.map Queue.config = Examples.busy.queues.map Queue.config ∧
      ∃ d : Nat,
        (∀ j : Nat, j ≠ d → s'.queues[j]? = Examples.busy.queues[j]?) ∧
        (s'.queues[d]? = Examples.busy.queues[d]? ∨
          ∃ target : Queue, Examples.busy.queues[d]? = some target ∧
            s'.queues[d]? = some (target.enqueue Examples.newcomer)) :=
  ⟨_, rfl, configuration_preserved 3 Examples.busy _ Examples.busy.blockingQueue
    Examples.newcomer SchedulerInterrupt.PROCESS_READY (Or.inl rfl)⟩

/-- C13: for each of the three recognised interrupt kinds, a call of `handleInterrupt` that
returns has put the process at the back of one queue: the sequence of that queue is its sequence
before the call followed by the process, and every other queue is as before.  In a well-formed
scheduler with at least one tier the call returns for every source queue of the scheduler. -/
theorem handleInterrupt_appends_at_back (PRIORITY_LEVELS : Nat) (s : Scheduler) (queue : Queue)
    (process : Process) (interrupt : SchedulerInterrupt)
    (hkind : ∀ tag : String, interrupt ≠ SchedulerInterrupt.other tag) :
    (∀ s' : Scheduler,
      s.handleInterrupt PRIORITY_LEVELS queue process interrupt = Except.ok s' →
      ∃ (d : Nat) (before after : Queue),
        s.queues[d]? = some before ∧
        s'.queues[d]? = some after ∧
        after.processes = before.processes ++ [process] ∧
        after.processes.getLast? = some process ∧
        before.processes <+: after.processes ∧
        (∀ j : Nat, j ≠ d → s'.queues[j]? = s.queues[j]?)) ∧
    (s.WellFormed PRIORITY_LEVELS → 0 < PRIORITY_LEVELS → queue ∈ s.queues →
      ∃ s' : Scheduler,
        s.handleInterrupt PRIORITY_LEVELS queue process interrupt = Except.ok s') := by
  constructor
  · intro s' h
    rcases Scheduler.handleInterrupt_ok PRIORITY_LEVELS s s' queue process interrupt h with
      ⟨⟨tag, htag⟩, -⟩ | ⟨-, rfl⟩ | ⟨-, d, target, hd, rfl⟩
    · exact absurd htag (hkind tag)
    · refine ⟨0, s.blockingQueue, s.blockingQueue.enqueue process, by simp [Scheduler.queues],
        by simp [Scheduler.queues, Scheduler.enqueueBlocking], rfl,
        by simp [Queue.enqueue], by simp [Queue.enqueue], fun j hj => ?_⟩
      obtain ⟨j, rfl⟩ := Nat.exists_eq_succ_of_ne_zero hj
      simp [Scheduler.queues, Scheduler.enqueueBlocking]
    · obtain ⟨hdest, hframe⟩ := Scheduler.queues_enqueueRunning s d target process hd
      exact ⟨d + 1, target, target.enqueue process, by simpa [Scheduler.queues] using hd, hdest,
        rfl, by simp [Queue.enqueue], by simp [Queue.enqueue], hframe⟩
  · intro hwf hpos hsource
    rcases Scheduler.handleInterrupt_routes PRIORITY_LEVELS s queue process interrupt hwf hpos
      hsource hkind with h | ⟨d, target, -, h⟩
    · exact ⟨_, h⟩
    · exact ⟨_, h⟩

/-- Witness of C13: the blocking queue of `busy` re-queues `newcomer` behind the process it
holds. -/
theorem handleInterrupt_appends_at_back_witness :
    ∃ s' : Scheduler,
      Examples.busy.handleInterrupt 3 Examples.busy.blockingQueue Examples.newcomer
        SchedulerInterrupt.LOWER_PRIORITY = Except.ok s' ∧
      ∃ (d : Nat) (before after : Queue),
        Examples.busy.queues[d]? = some before ∧
        s'.queues[d]? = some after ∧
        after.processes = before.processes ++ [Examples.newcomer] ∧
        after.processes.getLast? = some Examples.newcomer ∧
        before.processes <+: after.processes ∧
        (∀ j : Nat, j ≠ d → s'.queues[j]? = Examples.busy.queues[j]?) :=
  ⟨_, rfl, (handleInterrupt_appends_at_back 3 Examples.busy Examples.busy.blockingQueue
    Examples.newcomer SchedulerInterrupt.LOWER_PRIORITY (fun _ h => nomatch h)).1 _ rfl⟩

/-! ## Occurrences after an enqueue -/

/-- How often a process occurs in each queue after one was enqueued into the CPU queue of tier
`d`: once more in queue `d + 1` of `queues` when it is the process enqueued, as before
otherwise. -/
theorem Scheduler.occurrences_enqueueRunning (s : Scheduler) (d : Nat) (target : Queue)
    (process : Process) (hd : s.runningQueues[d]? = some target) (other : Process) (j : Nat) :
    ({ s with runningQueues := s.runningQueues.set d (target.enqueue process) } :
        Scheduler).occurrences j other
      = s.occurrences j other + (if j = d + 1 ∧ other = process then 1 else 0) := by
  obtain ⟨hdest, hframe⟩ := Scheduler.queues_enqueueRunning s d target process hd
  by_cases hj : j = d + 1
  · subst hj
    have hbefore : s.queues[d + 1]? = some target := by simpa [Scheduler.queues] using hd
    unfold Scheduler.occurrences
    rw [hdest, hbefore]
    by_cases ho : other = process
    · subst ho
      simp [Queue.enqueue]
    · have hne : ¬ process = other := fun h => ho h.symm
      simp [Queue.enqueue, List.count_singleton, ho, hne]
  · unfold Scheduler.occurrences
    rw [hframe j hj]
    simp [hj]

/-! ## One iteration of the dispatch loop -/

theorem Scheduler.cpuLoop_done (W : QueueWork) (timeslice : Int) (fuel i : Nat) (s : Scheduler)
    (calls : List WorkCall) (h : s.runningQueues[i]? = none) :
    Scheduler.cpuLoop W timeslice fuel i s calls = Except.ok (s, calls) := by
  cases fuel <;> simp [Scheduler.cpuLoop, h]

theorem Scheduler.cpuLoop_out_of_fuel (W : QueueWork) (timeslice : Int) (i : Nat)
    (s : Scheduler) (calls : List WorkCall) (queue : Queue)
    (h : s.runningQueues[i]? = some queue) :
    Scheduler.cpuLoop W timeslice 0 i s calls = Except.error Fault.fuelExhausted := by
  simp [Scheduler.cpuLoop, h]

/-- The loop step at an empty queue: nothing is invoked and the loop goes on in the same
state. -/
theorem Scheduler.cpuLoop_skip (W : QueueWork) (timeslice : Int) (fuel i : Nat) (s : Scheduler)
    (calls : List WorkCall) (queue : Queue) (h : s.runningQueues[i]? = some queue)
    (hempty : queue.isEmpty = true) :
    Scheduler.cpuLoop W timeslice (fuel + 1) i s calls
      = Scheduler.cpuLoop W timeslice fuel (i + 1) s calls := by
  conv_lhs => unfold Scheduler.cpuLoop
  simp only [h, hempty, Bool.not_true, Bool.false_eq_true, if_false]

/-- The loop step at a non-empty queue: `doCPUWork` is invoked on it and the loop goes on in
the state that call produced. -/
theorem Scheduler.cpuLoop_serve (W : QueueWork) (timeslice : Int) (fuel i : Nat) (s : Scheduler)
    (calls : List WorkCall) (queue : Queue) (h : s.runningQueues[i]? = some queue)
    (hempty : queue.isEmpty = false) :
    Scheduler.cpuLoop W timeslice (fuel + 1) i s calls =
      match W.doCPUWork s i timeslice with
      | Except.error e => Except.error e
      | Except.ok s1 =>
        Scheduler.cpuLoop W timeslice fuel (i + 1) s1
          (calls ++ [⟨WorkTarget.runningQueue i, timeslice, s⟩]) := by
  conv_lhs => unfold Scheduler.cpuLoop
  simp only [h, hempty, Bool.not_false, if_true]

/-- The invocations a returning `for` loop has made from index `i` on: each with the loop's
timeslice, on a CPU queue of tier at least `i` that was non-empty in the state of the
invocation, in strictly ascending order of tier. -/
theorem Scheduler.cpuLoop_calls (W : QueueWork) (timeslice : Int) :
    ∀ (fuel i : Nat) (s : Scheduler) (calls : List WorkCall) (s' : Scheduler)
      (calls' : List WorkCall),
      Scheduler.cpuLoop W timeslice fuel i s calls = Except.ok (s', calls') →
      ∃ more : List WorkCall, calls' = calls ++ more ∧
        (∀ call ∈ more, call.timeslice = timeslice ∧ i + 1 ≤ call.target.position ∧
          call.target.NonEmptyIn call.pre) ∧
        (more.map fun call => call.target.position).Pairwise (· < ·) := by
  intro fuel
  induction fuel with
  | zero =>
    intro i s calls s' calls' h
    cases hq : s.runningQueues[i]? with
    | none =>
      rw [Scheduler.cpuLoop_done W timeslice 0 i s calls hq] at h
      cases h
      exact ⟨[], by simp, by simp, by simp⟩
    | some queue =>
      rw [Scheduler.cpuLoop_out_of_fuel W timeslice i s calls queue hq] at h
      cases h
  | succ fuel ih =>
    intro i s calls s' calls' h
    cases hq : s.runningQueues[i]? with
    | none =>
      rw [Scheduler.cpuLoop_done W timeslice _ i s calls hq] at h
      cases h
      exact ⟨[], by simp, by simp, by simp⟩
    | some queue =>
      cases hempty : queue.isEmpty with
      | true =>
        rw [Scheduler.cpuLoop_skip W timeslice fuel i s calls queue hq hempty] at h
        obtain ⟨more, hmore, hall, hsorted⟩ := ih _ _ _ _ _ h
        exact ⟨more, hmore, fun call hc => ⟨(hall call hc).1, by have := (hall call hc).2.1; omega,
          (hall call hc).2.2⟩, hsorted⟩
      | false =>
        rw [Scheduler.cpuLoop_serve W timeslice fuel i s calls queue hq hempty] at h
        split at h
        · cases h
        · rename_i s1 hwork
          obtain ⟨more, hmore, hall, hsorted⟩ := ih _ _ _ _ _ h
          refine ⟨⟨WorkTarget.runningQueue i, timeslice, s⟩ :: more, by simp [hmore], ?_, ?_⟩
          · intro call hc
            rcases List.mem_cons.mp hc with rfl | hc
            · exact ⟨rfl, Nat.le_refl _, queue, by simpa [Scheduler.queues, WorkTarget.position]
                using hq, hempty⟩
            · exact ⟨(hall call hc).1, by have := (hall call hc).2.1; omega, (hall call hc).2.2⟩
          · simp only [List.map_cons, List.pairwise_cons, List.mem_map]
            refine ⟨?_, hsorted⟩
            rintro p ⟨call, hc, rfl⟩
            have := (hall call hc).2.1
            show i + 1 < call.target.position
            omega

/-- The invocations a returning iteration has made: each with the iteration's timeslice, on a
queue that was non-empty in the state of the invocation, in strictly ascending order of the
position of the queue (the blocking queue first, then the CPU queues by tier); a call on the
blocking queue is made exactly when it is non-empty at the start of the iteration, and it is
made in the state the iteration starts in. -/
theorem Scheduler.iteration_calls (W : QueueWork) (bound : Nat) (timeslice : Int)
    (s s' : Scheduler) (calls : List WorkCall)
    (h : Scheduler.iteration W bound timeslice s = Except.ok (s', calls)) :
    (∀ call ∈ calls, call.timeslice = timeslice ∧ call.target.NonEmptyIn call.pre) ∧
    (calls.map fun call => call.target.position).Pairwise (· < ·) ∧
    (∀ call ∈ calls, call.target = WorkTarget.blockingQueue →
      call.pre = s ∧ s.blockingQueue.isEmpty = false) ∧
    (s.blockingQueue.isEmpty = false →
      calls.head? = some ⟨WorkTarget.blockingQueue, timeslice, s⟩) := by
  unfold Scheduler.iteration at h
  split at h
  · rename_i hne
    have hne' : s.blockingQueue.isEmpty = false := by simpa using hne
    split at h
    · cases h
    · rename_i s1 hwork
      obtain ⟨more, hmore, hall, hsorted⟩ :=
        Scheduler.cpuLoop_calls W timeslice _ _ _ _ _ _ h
      subst hmore
      refine ⟨?_, ?_, ?_, fun _ => by simp⟩
      · intro call hc
        rcases List.mem_append.mp hc with hc | hc
        · simp only [List.mem_singleton] at hc
          subst hc
          exact ⟨rfl, s.blockingQueue, by simp [Scheduler.queues, WorkTarget.position], hne'⟩
        · exact ⟨(hall call hc).1, (hall call hc).2.2⟩
      · simp only [List.singleton_append, List.map_cons, List.pairwise_cons, List.mem_map]
        refine ⟨?_, hsorted⟩
        rintro p ⟨call, hc, rfl⟩
        have := (hall call hc).2.1
        show 0 < call.target.position
        omega
      · intro call hc htarget
        rcases List.mem_append.mp hc with hc | hc
        · simp only [List.mem_singleton] at hc
          subst hc
          exact ⟨rfl, hne'⟩
        · have := (hall call hc).2.1
          rw [htarget] at this
          simp [WorkTarget.position] at this
  · rename_i hempty
    have hempty' : s.blockingQueue.isEmpty = true := by simpa using hempty
    obtain ⟨more, hmore, hall, hsorted⟩ := Scheduler.cpuLoop_calls W timeslice _ _ _ _ _ _ h
    simp only [List.nil_append] at hmore
    subst hmore
    refine ⟨fun call hc => ⟨(hall call hc).1, (hall call hc).2.2⟩, hsorted, ?_, ?_⟩
    · intro call hc htarget
      have := (hall call hc).2.1
      rw [htarget] at this
      simp [WorkTarget.position] at this
    · intro hne
      rw [hempty'] at hne
      cases hne

/-- Every iteration a returning `while` loop has added to its record is the record of a returning
call of the loop body, with the timeslice of the record. -/
theorem Scheduler.runLoop_iterations (W : QueueWork) (now : Nat → Int) (bound : Nat) :
    ∀ (fuel reads : Nat) (s : Scheduler) (done : List Iteration) (s' : Scheduler)
      (done' : List Iteration) (reads' : Nat),
      Scheduler.runLoop W now bound fuel reads s done = Except.ok (s', done', reads') →
      ∃ more : List Iteration, done' = done ++ more ∧
        ∀ iteration ∈ more, ∃ before after : Scheduler,
          before.allQueuesEmpty = false ∧
          Scheduler.iteration W bound iteration.timeslice before
            = Except.ok (after, iteration.calls) := by
  intro fuel
  induction fuel with
  | zero =>
    intro reads s done s' done' reads' h
    cases hs : s.allQueuesEmpty with
    | false => rw [Scheduler.runLoop_out_of_fuel W now bound reads s done hs] at h; cases h
    | true =>
      rw [Scheduler.runLoop_of_empty W now bound 0 reads s done hs] at h
      cases h
      exact ⟨[], by simp, by simp⟩
  | succ fuel ih =>
    intro reads s done s' done' reads' h
    cases hs : s.allQueuesEmpty with
    | true =>
      rw [Scheduler.runLoop_of_empty W now bound _ reads s done hs] at h
      cases h
      exact ⟨[], by simp, by simp⟩
    | false =>
      rw [Scheduler.runLoop_of_not_empty W now bound fuel reads s done hs] at h
      split at h
      · cases h
      · rename_i s1 calls hit
        obtain ⟨more, hmore, hall⟩ := ih _ _ _ _ _ _ h
        refine ⟨⟨now reads - s.clock, calls⟩ :: more, by simp [hmore], ?_⟩
        intro iteration hmem
        rcases List.mem_cons.mp hmem with rfl | hmem
        · exact ⟨s, s1, hs, hit⟩
        · exact hall iteration hmem

/-- The iterations in the record of a returning `run` are records of returning calls of the loop
body. -/
theorem Scheduler.run_iterations (W : QueueWork) (now : Nat → Int) (fuel : Nat)
    (s s' : Scheduler) (iterations : List Iteration)
    (h : s.run W now fuel = Except.ok (s', iterations)) :
    ∀ iteration ∈ iterations, ∃ before after : Scheduler,
      before.allQueuesEmpty = false ∧
      Scheduler.iteration W fuel iteration.timeslice before
        = Except.ok (after, iteration.calls) := by
  unfold Scheduler.run at h
  split at h
  · cases h
  · rename_i s1 done reads hloop
    obtain ⟨more, hmore, hall⟩ :=
      Scheduler.runLoop_iterations W now fuel fuel 0 s [] s1 done reads hloop
    simp only [Except.ok.injEq, Prod.mk.injEq] at h
    obtain ⟨-, hiterations⟩ := h
    simp only [List.nil_append] at hmore
    rw [← hiterations, hmore]
    exact hall

theorem WorkTarget.position_injective : Function.Injective WorkTarget.position := by
  intro a b h
  cases a <;> cases b <;> simp_all [WorkTarget.position]

/-! ## The record of an iteration is complete -/

theorem WorkCall.stateAtTest_nil (final : Scheduler) (i : Nat) :
    WorkCall.stateAtTest [] final i = final := rfl

theorem WorkCall.stateAtTest_cons_of_le (call : WorkCall) (rest : List WorkCall)
    (final : Scheduler) (i : Nat) (h : i + 1 ≤ call.target.position) :
    WorkCall.stateAtTest (call :: rest) final i = call.pre := by
  simp [WorkCall.stateAtTest, List.find?, h]

theorem WorkCall.stateAtTest_cons_of_lt (call : WorkCall) (rest : List WorkCall)
    (final : Scheduler) (i : Nat) (h : call.target.position < i + 1) :
    WorkCall.stateAtTest (call :: rest) final i = WorkCall.stateAtTest rest final i := by
  have : ¬ i + 1 ≤ call.target.position := by omega
  simp [WorkCall.stateAtTest, List.find?, this]

/-- In a record threaded from `start` whose calls are all on tier `i` or later, the state in
which tier `i` was tested is `start`. -/
theorem WorkCall.stateAtTest_of_threads (W : QueueWork) (start final : Scheduler)
    (calls : List WorkCall) (i : Nat) (hthreads : W.Threads start calls final)
    (hlater : ∀ call ∈ calls, i + 1 ≤ call.target.position) :
    WorkCall.stateAtTest calls final i = start := by
  cases calls with
  | nil => exact hthreads
  | cons call rest =>
    rw [WorkCall.stateAtTest_cons_of_le call rest final i (hlater call (List.mem_cons_self _ _))]
    exact hthreads.1

/-- The record of a returning `for` loop from index `i` on: the calls are threaded from the
state the loop starts in to the state it ends in, they are on tiers from `i` on, and a tier from
`i` on has a call exactly when its queue held a process in the state in which it was tested. -/
theorem Scheduler.cpuLoop_record (W : QueueWork) (timeslice : Int) :
    ∀ (fuel i : Nat) (s : Scheduler) (calls : List WorkCall) (s' : Scheduler)
      (calls' : List WorkCall),
      Scheduler.cpuLoop W timeslice fuel i s calls = Except.ok (s', calls') →
      ∃ more : List WorkCall, calls' = calls ++ more ∧
        W.Threads s more s' ∧
        (∀ call ∈ more, i + 1 ≤ call.target.position) ∧
        ∀ j : Nat, i ≤ j →
          ((∃ call ∈ more, call.target = WorkTarget.runningQueue j) ↔
            ∃ queue : Queue,
              (WorkCall.stateAtTest more s' j).runningQueues[j]? = some queue ∧
              queue.isEmpty = false) := by
  intro fuel
  induction fuel with
  | zero =>
    intro i s calls s' calls' h
    cases hq : s.runningQueues[i]? with
    | none =>
      rw [Scheduler.cpuLoop_done W timeslice 0 i s calls hq] at h
      cases h
      refine ⟨[], by simp, rfl, by simp, fun j hj => ?_⟩
      have hnone : s.runningQueues[j]? = none := by
        rw [List.getElem?_eq_none_iff] at hq ⊢
        omega
      simp [WorkCall.stateAtTest_nil, hnone]
    | some queue =>
      rw [Scheduler.cpuLoop_out_of_fuel W timeslice i s calls queue hq] at h
      cases h
  | succ fuel ih =>
    intro i s calls s' calls' h
    cases hq : s.runningQueues[i]? with
    | none =>
      rw [Scheduler.cpuLoop_done W timeslice _ i s calls hq] at h
      cases h
      refine ⟨[], by simp, rfl, by simp, fun j hj => ?_⟩
      have hnone : s.runningQueues[j]? = none := by
        rw [List.getElem?_eq_none_iff] at hq ⊢
        omega
      simp [WorkCall.stateAtTest_nil, hnone]
    | some queue =>
      cases hempty : queue.isEmpty with
      | true =>
        rw [Scheduler.cpuLoop_skip W timeslice fuel i s calls queue hq hempty] at h
        obtain ⟨more, hmore, hthreads, hlater, hserved⟩ := ih _ _ _ _ _ h
        refine ⟨more, hmore, hthreads, fun call hc => by have := hlater call hc; omega,
          fun j hj => ?_⟩
        rcases Nat.eq_or_lt_of_le hj with rfl | hlt
        · rw [WorkCall.stateAtTest_of_threads W s s' more i hthreads
            (fun call hc => by have := hlater call hc; omega)]
          constructor
          · rintro ⟨call, hc, htarget⟩
            have := hlater call hc
            rw [htarget] at this
            simp only [WorkTarget.position] at this
            omega
          · rintro ⟨queue', hq', hne⟩
            rw [hq] at hq'
            cases hq'
            rw [hempty] at hne
            cases hne
        · exact hserved j hlt
      | false =>
        rw [Scheduler.cpuLoop_serve W timeslice fuel i s calls queue hq hempty] at h
        split at h
        · cases h
        · rename_i s1 hwork
          obtain ⟨more, hmore, hthreads, hlater, hserved⟩ := ih _ _ _ _ _ h
          refine ⟨⟨WorkTarget.runningQueue i, timeslice, s⟩ :: more, by simp [hmore],
            ⟨rfl, s1, hwork, hthreads⟩, ?_, fun j hj => ?_⟩
          · intro call hc
            rcases List.mem_cons.mp hc with rfl | hc
            · exact Nat.le_refl _
            · have := hlater call hc
              omega
          · rcases Nat.eq_or_lt_of_le hj with rfl | hlt
            · rw [WorkCall.stateAtTest_cons_of_le ⟨WorkTarget.runningQueue i, timeslice, s⟩ more
                s' i (Nat.le_refl _)]
              exact ⟨fun _ => ⟨queue, hq, hempty⟩,
                fun _ => ⟨_, List.mem_cons_self _ _, rfl⟩⟩
            · rw [WorkCall.stateAtTest_cons_of_lt ⟨WorkTarget.runningQueue i, timeslice, s⟩ more
                s' j (by show i + 1 < j + 1; omega)]
              rw [← hserved j hlt]
              constructor
              · rintro ⟨call, hc, htarget⟩
                rcases List.mem_cons.mp hc with rfl | hc
                · simp only [WorkTarget.runningQueue.injEq] at htarget
                  omega
                · exact ⟨call, hc, htarget⟩
              · rintro ⟨call, hc, htarget⟩
                exact ⟨call, List.mem_cons_of_mem _ hc, htarget⟩

/-- The record of a returning iteration: the calls are threaded from the state the iteration
starts in to the state it ends in, and a CPU tier has a call exactly when its queue held a
process in the state in which it was tested. -/
theorem Scheduler.iteration_record (W : QueueWork) (bound : Nat) (timeslice : Int)
    (s s' : Scheduler) (calls : List WorkCall)
    (h : Scheduler.iteration W bound timeslice s = Except.ok (s', calls)) :
    W.Threads s calls s' ∧
    ∀ i : Nat,
      ((∃ call ∈ calls, call.target = WorkTarget.runningQueue i) ↔
        ∃ queue : Queue,
          (WorkCall.stateAtTest calls s' i).runningQueues[i]? = some queue ∧
          queue.isEmpty = false) := by
  unfold Scheduler.iteration at h
  split at h
  · split at h
    · cases h
    · rename_i s1 hwork
      obtain ⟨more, hmore, hthreads, -, hserved⟩ :=
        Scheduler.cpuLoop_record W timeslice _ _ _ _ _ _ h
      subst hmore
      refine ⟨⟨rfl, s1, hwork, hthreads⟩, fun i => ?_⟩
      rw [List.singleton_append,
        WorkCall.stateAtTest_cons_of_lt ⟨WorkTarget.blockingQueue, timeslice, s⟩ more s' i
          (by show 0 < i + 1; omega),
        ← hserved i (Nat.zero_le i)]
      constructor
      · rintro ⟨call, hc, htarget⟩
        rcases List.mem_cons.mp hc with rfl | hc
        · cases htarget
        · exact ⟨call, hc, htarget⟩
      · rintro ⟨call, hc, htarget⟩
        exact ⟨call, List.mem_cons_of_mem _ hc, htarget⟩
  · obtain ⟨more, hmore, hthreads, -, hserved⟩ :=
      Scheduler.cpuLoop_record W timeslice _ _ _ _ _ _ h
    simp only [List.nil_append] at hmore
    subst hmore
    exact ⟨hthreads, fun i => hserved i (Nat.zero_le i)⟩

/-- An iteration that starts with some queue non-empty makes a call, and its first call is made
in the state the iteration starts in. -/
theorem Scheduler.iteration_first_call (W : QueueWork) (bound : Nat) (timeslice : Int)
    (s s' : Scheduler) (calls : List WorkCall)
    (h : Scheduler.iteration W bound timeslice s = Except.ok (s', calls))
    (hs : s.allQueuesEmpty = false) :
    ∃ first : WorkCall, calls.head? = some first ∧ first.pre = s := by
  obtain ⟨hthreads, hserved⟩ := Scheduler.iteration_record W bound timeslice s s' calls h
  cases calls with
  | cons first rest => exact ⟨first, rfl, hthreads.1⟩
  | nil =>
    exfalso
    have hs' : s' = s := hthreads
    cases hb : s.blockingQueue.isEmpty with
    | false =>
      have := (Scheduler.iteration_calls W bound timeslice s s' [] h).2.2.2 hb
      cases this
    | true =>
      have hall : (s.runningQueues.all fun queue => queue.isEmpty) = false := by
        simpa [Scheduler.allQueuesEmpty, hb] using hs
      obtain ⟨queue, hmem, hne⟩ : ∃ queue ∈ s.runningQueues, queue.isEmpty = false := by
        by_contra hcon
        have : (s.runningQueues.all fun queue => queue.isEmpty) = true := by
          rw [List.all_eq_true]
          intro queue hq
          cases he : queue.isEmpty with
          | true => rfl
          | false => exact absurd ⟨queue, hq, he⟩ hcon
        rw [this] at hall
        cases hall
      obtain ⟨i, hi⟩ := List.getElem?_of_mem hmem
      have := (hserved i).mpr ⟨queue, by rw [WorkCall.stateAtTest_nil, hs']; exact hi, hne⟩
      obtain ⟨call, hc, -⟩ := this
      cases hc

/-- C11: the order of service within an iteration of `run`.  A returning iteration hands its one
timeslice to every queue it serves, and its calls are made one after the other, each in the state
the call before it returned.  The positions of the queues served (0 for the blocking queue,
`i + 1` for CPU tier `i`) strictly ascend, so the blocking queue comes before any CPU queue, the
CPU queues come in ascending tier order, and no queue is served twice.  The blocking queue is
served, first and in the start state, exactly when it is non-empty at the start; CPU tier `i` is
served exactly when its queue holds a process in the state in which it is tested.  Every
iteration in the record of a returning `run` is such an iteration, started in the state of its
first call with the timeslice of the record. -/
theorem run_service_order (W : QueueWork) (now : Nat → Int) (fuel : Nat) (s : Scheduler) :
    (∀ (timeslice : Int) (start final : Scheduler) (calls : List WorkCall),
      Scheduler.iteration W fuel timeslice start = Except.ok (final, calls) →
      (∀ call ∈ calls, call.timeslice = timeslice) ∧
      W.Threads start calls final ∧
      (calls.map fun call => call.target.position).Pairwise (· < ·) ∧
      (calls.map fun call => call.target).Nodup ∧
      (start.blockingQueue.isEmpty = false →
        calls.head? = some ⟨WorkTarget.blockingQueue, timeslice, start⟩) ∧
      (start.blockingQueue.isEmpty = true →
        ∀ call ∈ calls, call.target ≠ WorkTarget.blockingQueue) ∧
      (∀ call ∈ calls.tail, ∃ i : Nat, call.target = WorkTarget.runningQueue i) ∧
      (∀ i : Nat,
        (∃ call ∈ calls, call.target = WorkTarget.runningQueue i) ↔
          ∃ queue : Queue,
            (WorkCall.stateAtTest calls final i).runningQueues[i]? = some queue ∧
            queue.isEmpty = false)) ∧
    (∀ (s' : Scheduler) (iterations : List Iteration),
      s.run W now fuel = Except.ok (s', iterations) →
      ∀ iteration ∈ iterations,
        (∃ (first : WorkCall) (after : Scheduler),
          iteration.calls.head? = some first ∧
          Scheduler.iteration W fuel iteration.timeslice first.pre
            = Except.ok (after, iteration.calls)) ∧
        (∀ call ∈ iteration.calls, call.timeslice = iteration.timeslice) ∧
        (iteration.calls.map fun call => call.target.position).Pairwise (· < ·) ∧
        (∀ call ∈ iteration.calls.tail, ∃ i : Nat, call.target = WorkTarget.runningQueue i) ∧
        (iteration.calls.map fun call => call.target).Nodup) := by
  have hbody : ∀ (timeslice : Int) (start final : Scheduler) (calls : List WorkCall),
      Scheduler.iteration W fuel timeslice start = Except.ok (final, calls) →
      (∀ call ∈ calls, call.timeslice = timeslice) ∧
      (calls.map fun call => call.target.position).Pairwise (· < ·) ∧
      (calls.map fun call => call.target).Nodup ∧
      (∀ call ∈ calls.tail, ∃ i : Nat, call.target = WorkTarget.runningQueue i) := by
    intro timeslice start final calls hit
    obtain ⟨hall, hsorted, -, -⟩ :=
      Scheduler.iteration_calls W fuel timeslice start final calls hit
    refine ⟨fun call hc => (hall call hc).1, hsorted, ?_, ?_⟩
    · have hne : (calls.map fun call => call.target.position).Nodup :=
        hsorted.imp (fun h => Nat.ne_of_lt h)
      have hmap : (calls.map fun call => call.target.position)
          = (calls.map fun call => call.target).map WorkTarget.position := by
        simp [List.map_map]
      rw [hmap] at hne
      exact List.Nodup.of_map WorkTarget.position hne
    · intro call hc
      cases hcalls : calls with
      | nil => rw [hcalls] at hc; cases hc
      | cons first rest =>
        rw [hcalls] at hc hsorted
        simp only [List.tail_cons] at hc
        simp only [List.map_cons, List.pairwise_cons, List.mem_map] at hsorted
        have hpos := hsorted.1 call.target.position ⟨call, hc, rfl⟩
        cases htarget : call.target with
        | blockingQueue =>
          rw [htarget] at hpos
          simp [WorkTarget.position] at hpos
        | runningQueue i => exact ⟨i, rfl⟩
  constructor
  · intro timeslice start final calls hit
    obtain ⟨hslice, hsorted, hnodup, htail⟩ := hbody timeslice start final calls hit
    obtain ⟨-, -, hblocking, hhead⟩ :=
      Scheduler.iteration_calls W fuel timeslice start final calls hit
    obtain ⟨hthreads, hserved⟩ :=
      Scheduler.iteration_record W fuel timeslice start final calls hit
    refine ⟨hslice, hthreads, hsorted, hnodup, hhead, ?_, htail, hserved⟩
    intro hempty call hc htarget
    have := (hblocking call hc htarget).2
    rw [hempty] at this
    cases this
  · intro s' iterations hrun iteration hmem
    obtain ⟨before, after, hstart, hit⟩ :=
      Scheduler.run_iterations W now fuel s s' iterations hrun iteration hmem
    obtain ⟨hslice, hsorted, hnodup, htail⟩ :=
      hbody iteration.timeslice before after iteration.calls hit
    obtain ⟨first, hfirst, hpre⟩ :=
      Scheduler.iteration_first_call W fuel iteration.timeslice before after iteration.calls
        hit hstart
    refine ⟨⟨first, after, hfirst, ?_⟩, hslice, hsorted, htail, hnodup⟩
    rw [hpre]
    exact hit

/-- Witness of C11: an iteration on `busy` serves the blocking queue, tier 0 and tier 2 in this
order and passes the empty tier 1; `run` on `admitted` returns after two iterations, the first
serving tier 0, the second the blocking queue and then tier 0. -/
theorem run_service_order_witness :
    (∃ (final : Scheduler) (calls : List WorkCall),
      Scheduler.iteration (Queue.work 3) 5 100 Examples.busy = Except.ok (final, calls) ∧
      calls.map (fun call => call.target)
        = [WorkTarget.blockingQueue, WorkTarget.runningQueue 0, WorkTarget.runningQueue 2] ∧
      (∀ call ∈ calls, call.timeslice = 100) ∧
      (Queue.work 3).Threads Examples.busy calls final ∧
      (calls.map fun call => call.target.position).Pairwise (· < ·) ∧
      (calls.map fun call => call.target).Nodup ∧
      (Examples.busy.blockingQueue.isEmpty = false →
        calls.head? = some ⟨WorkTarget.blockingQueue, 100, Examples.busy⟩) ∧
      (Examples.busy.blockingQueue.isEmpty = true →
        ∀ call ∈ calls, call.target ≠ WorkTarget.blockingQueue) ∧
      (∀ call ∈ calls.tail, ∃ i : Nat, call.target = WorkTarget.runningQueue i) ∧
      (∀ i : Nat,
        (∃ call ∈ calls, call.target = WorkTarget.runningQueue i) ↔
          ∃ queue : Queue,
            (WorkCall.stateAtTest calls final i).runningQueues[i]? = some queue ∧
            queue.isEmpty = false)) ∧
    (∃ (final : Scheduler) (iterations : List Iteration),
      Examples.admitted.run (Queue.work 3) Examples.readings 5
        = Except.ok (final, iterations) ∧
      iterations.map (fun iteration => iteration.calls.map fun call => call.target)
        = [[WorkTarget.runningQueue 0],
           [WorkTarget.blockingQueue, WorkTarget.runningQueue 0]] ∧
      ∀ iteration ∈ iterations,
        (∃ (first : WorkCall) (after : Scheduler),
          iteration.calls.head? = some first ∧
          Scheduler.iteration (Queue.work 3) 5 iteration.timeslice first.pre
            = Except.ok (after, iteration.calls)) ∧
        (∀ call ∈ iteration.calls, call.timeslice = iteration.timeslice) ∧
        (iteration.calls.map fun call => call.target.position).Pairwise (· < ·) ∧
        (∀ call ∈ iteration.calls.tail, ∃ i : Nat, call.target = WorkTarget.runningQueue i) ∧
        (iteration.calls.map fun call => call.target).Nodup) :=
  ⟨⟨_, _, rfl, rfl,
      (run_service_order (Queue.work 3) Examples.readings 5 Examples.busy).1 100
        Examples.busy _ _ rfl⟩,
    ⟨_, _, rfl, rfl,
      (run_service_order (Queue.work 3) Examples.readings 5 Examples.admitted).2 _ _ rfl⟩⟩

/-! ## Work on empty queues -/

/-- The `for` loop does not depend on what `doCPUWork` does on an empty queue. -/
theorem Scheduler.cpuLoop_congr (W W' : QueueWork) (timeslice : Int)
    (hcpu : ∀ (s : Scheduler) (i : Nat) (t : Int) (queue : Queue),
      s.runningQueues[i]? = some queue → queue.isEmpty = false →
      W'.doCPUWork s i t = W.doCPUWork s i t) :
    ∀ (fuel i : Nat) (s : Scheduler) (calls : List WorkCall),
      Scheduler.cpuLoop W' timeslice fuel i s calls
        = Scheduler.cpuLoop W timeslice fuel i s calls := by
  intro fuel
  induction fuel with
  | zero =>
    intro i s calls
    cases hq : s.runningQueues[i]? with
    | none =>
      rw [Scheduler.cpuLoop_done W' timeslice 0 i s calls hq,
        Scheduler.cpuLoop_done W timeslice 0 i s calls hq]
    | some queue =>
      rw [Scheduler.cpuLoop_out_of_fuel W' timeslice i s calls queue hq,
        Scheduler.cpuLoop_out_of_fuel W timeslice i s calls queue hq]
  | succ fuel ih =>
    intro i s calls
    cases hq : s.runningQueues[i]? with
    | none =>
      rw [Scheduler.cpuLoop_done W' timeslice _ i s calls hq,
        Scheduler.cpuLoop_done W timeslice _ i s calls hq]
    | some queue =>
      cases hempty : queue.isEmpty with
      | true =>
        rw [Scheduler.cpuLoop_skip W' timeslice fuel i s calls queue hq hempty,
          Scheduler.cpuLoop_skip W timeslice fuel i s calls queue hq hempty]
        exact ih _ _ _
      | false =>
        rw [Scheduler.cpuLoop_serve W' timeslice fuel i s calls queue hq hempty,
          Scheduler.cpuLoop_serve W timeslice fuel i s calls queue hq hempty,
          hcpu s i timeslice queue hq hempty]
        cases W.doCPUWork s i timeslice with
        | error e => rfl
        | ok s1 => exact ih _ _ _

/-- The loop body does not depend on what the work primitives do on an empty queue. -/
theorem Scheduler.iteration_congr (W W' : QueueWork) (bound : Nat) (timeslice : Int)
    (s : Scheduler)
    (hblocking : ∀ (s : Scheduler) (t : Int), s.blockingQueue.isEmpty = false →
      W'.doBlockingWork s t = W.doBlockingWork s t)
    (hcpu : ∀ (s : Scheduler) (i : Nat) (t : Int) (queue : Queue),
      s.runningQueues[i]? = some queue → queue.isEmpty = false →
      W'.doCPUWork s i t = W.doCPUWork s i t) :
    Scheduler.iteration W' bound timeslice s = Scheduler.iteration W bound timeslice s := by
  unfold Scheduler.iteration
  cases hempty : s.blockingQueue.isEmpty with
  | true =>
    simp only [Bool.not_true, Bool.false_eq_true, if_false]
    exact Scheduler.cpuLoop_congr W W' timeslice hcpu _ _ _ _
  | false =>
    simp only [Bool.not_false, if_true, hblocking s timeslice hempty]
    cases W.doBlockingWork s timeslice with
    | error e => rfl
    | ok s1 => exact Scheduler.cpuLoop_congr W W' timeslice hcpu _ _ _ _

/-- The `while` loop does not depend on what the work primitives do on an empty queue. -/
theorem Scheduler.runLoop_congr (W W' : QueueWork) (now : Nat → Int) (bound : Nat)
    (hblocking : ∀ (s : Scheduler) (t : Int), s.blockingQueue.isEmpty = false →
      W'.doBlockingWork s t = W.doBlockingWork s t)
    (hcpu : ∀ (s : Scheduler) (i : Nat) (t : Int) (queue : Queue),
      s.runningQueues[i]? = some queue → queue.isEmpty = false →
      W'.doCPUWork s i t = W.doCPUWork s i t) :
    ∀ (fuel reads : Nat) (s : Scheduler) (done : List Iteration),
      Scheduler.runLoop W' now bound fuel reads s done
        = Scheduler.runLoop W now bound fuel reads s done := by
  intro fuel
  induction fuel with
  | zero =>
    intro reads s done
    cases hs : s.allQueuesEmpty with
    | false =>
      rw [Scheduler.runLoop_out_of_fuel W' now bound reads s done hs,
        Scheduler.runLoop_out_of_fuel W now bound reads s done hs]
    | true =>
      rw [Scheduler.runLoop_of_empty W' now bound 0 reads s done hs,
        Scheduler.runLoop_of_empty W now bound 0 reads s done hs]
  | succ fuel ih =>
    intro reads s done
    cases hs : s.allQueuesEmpty with
    | true =>
      rw [Scheduler.runLoop_of_empty W' now bound _ reads s done hs,
        Scheduler.runLoop_of_empty W now bound _ reads s done hs]
    | false =>
      rw [Scheduler.runLoop_of_not_empty W' now bound fuel reads s done hs,
        Scheduler.runLoop_of_not_empty W now bound fuel reads s done hs,
        Scheduler.iteration_congr W W' bound _ s hblocking hcpu]
      cases Scheduler.iteration W bound (now reads - s.clock) s with
      | error e => rfl
      | ok result => exact ih _ _ _

/-- C14: `run` never invokes a work primitive on an empty queue.  In the record of a returning
`run`, the blocking queue is non-empty in the state in which `doBlockingWork` is invoked and the
tier-`i` queue is non-empty in the state in which `doCPUWork` is invoked on it; and the result
of `run`, error or not, is the same for any other pair of work primitives that does the same
work on non-empty queues. -/
theorem run_never_works_on_empty_queue (W : QueueWork) (now : Nat → Int) (fuel : Nat)
    (s : Scheduler) :
    (∀ (s' : Scheduler) (iterations : List Iteration),
      s.run W now fuel = Except.ok (s', iterations) →
      ∀ iteration ∈ iterations, ∀ call ∈ iteration.calls,
        (call.target = WorkTarget.blockingQueue → call.pre.blockingQueue.isEmpty = false) ∧
        (∀ i : Nat, call.target = WorkTarget.runningQueue i →
          ∃ queue : Queue, call.pre.runningQueues[i]? = some queue ∧ queue.isEmpty = false)) ∧
    (∀ W' : QueueWork,
      (∀ (state : Scheduler) (t : Int), state.blockingQueue.isEmpty = false →
        W'.doBlockingWork state t = W.doBlockingWork state t) →
      (∀ (state : Scheduler) (i : Nat) (t : Int) (queue : Queue),
        state.runningQueues[i]? = some queue → queue.isEmpty = false →
        W'.doCPUWork state i t = W.doCPUWork state i t) →
      s.run W' now fuel = s.run W now fuel) := by
  constructor
  · intro s' iterations hrun iteration hmem call hc
    obtain ⟨before, after, -, hit⟩ :=
      Scheduler.run_iterations W now fuel s s' iterations hrun iteration hmem
    obtain ⟨hall, -, -, -⟩ :=
      Scheduler.iteration_calls W fuel iteration.timeslice before after iteration.calls hit
    obtain ⟨queue, hq, hne⟩ := (hall call hc).2
    constructor
    · intro htarget
      rw [htarget] at hq
      simp only [WorkTarget.position, Scheduler.queues, List.getElem?_cons_zero,
        Option.some.injEq] at hq
      rw [hq]
      exact hne
    · intro i htarget
      rw [htarget] at hq
      simp only [WorkTarget.position, Scheduler.queues, List.getElem?_cons_succ] at hq
      exact ⟨queue, hq, hne⟩
  · intro W' hblocking hcpu
    unfold Scheduler.run
    rw [Scheduler.runLoop_congr W W' now fuel hblocking hcpu]

/-- Witness of C14: in the run on `admitted` every call is on a queue that holds a process, and
primitives that return `busy` when run on an empty queue give the same run. -/
theorem run_never_works_on_empty_queue_witness :
    (∃ (final : Scheduler) (iterations : List Iteration),
      Examples.admitted.run (Queue.work 3) Examples.readings 5
        = Except.ok (final, iterations) ∧
      iterations.length = 2 ∧
      ∀ iteration ∈ iterations, ∀ call ∈ iteration.calls,
        (call.target = WorkTarget.blockingQueue → call.pre.blockingQueue.isEmpty = false) ∧
        (∀ i : Nat, call.target = WorkTarget.runningQueue i →
          ∃ queue : Queue,
            call.pre.runningQueues[i]? = some queue ∧ queue.isEmpty = false)) ∧
    Examples.admitted.run
        { doBlockingWork := fun state t =>
            if state.blockingQueue.isEmpty then Except.ok Examples.busy
            else Queue.doBlockingWork 3 state t
          doCPUWork := fun state i t =>
            match state.runningQueues[i]? with
            | some queue =>
              if queue.isEmpty then Except.ok Examples.busy else Queue.doCPUWork 3 state i t
            | none => Queue.doCPUWork 3 state i t }
        Examples.readings 5
      = Examples.admitted.run (Queue.work 3) Examples.readings 5 :=
  ⟨⟨_, _, rfl, rfl,
      (run_never_works_on_empty_queue (Queue.work 3) Examples.readings 5 Examples.admitted).1 _ _
        rfl⟩,
    (run_never_works_on_empty_queue (Queue.work 3) Examples.readings 5 Examples.admitted).2 _
      (fun state t h => by simp [h, Queue.work])
      (fun state i t queue hq h => by simp [hq, h, Queue.work])⟩

/-! ## Cascades within one iteration -/

/-- An iteration that starts with a non-empty blocking queue begins with `doBlockingWork` in the
start state and runs the `for` loop in the state that call produced. -/
theorem Scheduler.iteration_blocking (W : QueueWork) (bound : Nat) (timeslice : Int)
    (s : Scheduler) (h : s.blockingQueue.isEmpty = false) :
    Scheduler.iteration W bound timeslice s =
      match W.doBlockingWork s timeslice with
      | Except.error e => Except.error e
      | Except.ok s1 =>
        Scheduler.cpuLoop W timeslice bound 0 s1 [⟨WorkTarget.blockingQueue, timeslice, s⟩] := by
  unfold Scheduler.iteration
  simp only [h, Bool.not_false, if_true]

/-- C19: the same-iteration cascade.  The emptiness test of a queue is made in the state the
earlier work of the iteration produced: when `doBlockingWork` leaves tier 0 non-empty,
`doCPUWork` is invoked on tier 0 in that state in the same iteration, and when `doCPUWork` on
tier `i` leaves tier `i + 1` non-empty, `doCPUWork` is invoked on tier `i + 1` in that state in
the same iteration, whatever these queues held when the iteration began.  `doBlockingWork` is
invoked only as the first call of an iteration, in its start state, so what CPU work puts into
the blocking queue is not served in that iteration; an iteration that starts with a non-empty
blocking queue begins with `doBlockingWork`. -/
theorem run_same_iteration_cascade (W : QueueWork) (bound : Nat) (timeslice : Int)
    (s : Scheduler) :
    (∀ (s1 : Scheduler) (tier0 : Queue),
      s.blockingQueue.isEmpty = false →
      W.doBlockingWork s timeslice = Except.ok s1 →
      s1.runningQueues[0]? = some tier0 → tier0.isEmpty = false →
      Scheduler.iteration W (bound + 1) timeslice s =
        match W.doCPUWork s1 0 timeslice with
        | Except.error e => Except.error e
        | Except.ok s2 =>
          Scheduler.cpuLoop W timeslice bound 1 s2
            [⟨WorkTarget.blockingQueue, timeslice, s⟩,
             ⟨WorkTarget.runningQueue 0, timeslice, s1⟩]) ∧
    (∀ (i : Nat) (calls : List WorkCall) (source next : Queue) (s1 : Scheduler),
      s.runningQueues[i]? = some source → source.isEmpty = false →
      W.doCPUWork s i timeslice = Except.ok s1 →
      s1.runningQueues[i + 1]? = some next → next.isEmpty = false →
      Scheduler.cpuLoop W timeslice (bound + 2) i s calls =
        match W.doCPUWork s1 (i + 1) timeslice with
        | Except.error e => Except.error e
        | Except.ok s2 =>
          Scheduler.cpuLoop W timeslice bound (i + 2) s2
            (calls ++ [⟨WorkTarget.runningQueue i, timeslice, s⟩,
              ⟨WorkTarget.runningQueue (i + 1), timeslice, s1⟩])) ∧
    (∀ (s' : Scheduler) (calls : List WorkCall),
      Scheduler.iteration W bound timeslice s = Except.ok (s', calls) →
      (∀ call ∈ calls, call.target = WorkTarget.blockingQueue →
        call.pre = s ∧ s.blockingQueue.isEmpty = false) ∧
      (∀ call ∈ calls.tail, call.target ≠ WorkTarget.blockingQueue) ∧
      (s.blockingQueue.isEmpty = true →
        ∀ call ∈ calls, call.target ≠ WorkTarget.blockingQueue)) ∧
    (s.blockingQueue.isEmpty = false →
      Scheduler.iteration W bound timeslice s =
        match W.doBlockingWork s timeslice with
        | Except.error e => Except.error e
        | Except.ok s1 =>
          Scheduler.cpuLoop W timeslice bound 0 s1
            [⟨WorkTarget.blockingQueue, timeslice, s⟩]) := by
  refine ⟨?_, ?_, ?_, Scheduler.iteration_blocking W bound timeslice s⟩
  · intro s1 tier0 hne hwork h0 htier0
    rw [Scheduler.iteration_blocking W (bound + 1) timeslice s hne, hwork]
    simp only
    rw [Scheduler.cpuLoop_serve W timeslice bound 0 s1 _ tier0 h0 htier0]
    rfl
  · intro i calls source next s1 hsource hne hwork hnext hnextne
    rw [Scheduler.cpuLoop_serve W timeslice (bound + 1) i s calls source hsource hne, hwork]
    simp only
    rw [Scheduler.cpuLoop_serve W timeslice bound (i + 1) s1 _ next hnext hnextne]
    simp only [List.append_assoc, List.singleton_append]
  · intro s' calls hit
    obtain ⟨-, hsorted, hblocking, -⟩ :=
      Scheduler.iteration_calls W bound timeslice s s' calls hit
    refine ⟨hblocking, ?_, ?_⟩
    · intro call hc htarget
      cases hcalls : calls with
      | nil => rw [hcalls] at hc; cases hc
      | cons first rest =>
        rw [hcalls] at hc hsorted
        simp only [List.tail_cons] at hc
        simp only [List.map_cons, List.pairwise_cons, List.mem_map] at hsorted
        have hpos := hsorted.1 call.target.position ⟨call, hc, rfl⟩
        rw [htarget] at hpos
        simp [WorkTarget.position] at hpos
    · intro hempty call hc htarget
      have := (hblocking call hc htarget).2
      rw [hempty] at this
      cases this

/-- Witness of C19: with tier 0 empty at the start, the process the blocking queue releases is
served in tier 0 in the same iteration; with tier 1 empty at the start, the process tier 0
demotes is served in tier 1 in the same iteration; and the process tier 0 sends to the blocking
queue is still there, unserved, when the iteration ends. -/
theorem run_same_iteration_cascade_witness :
    ((Examples.blocked.runningQueues[0]?).map Queue.isEmpty = some true ∧
      ∃ (final : Scheduler) (calls : List WorkCall),
        Scheduler.iteration (Queue.work 3) 3 130 Examples.blocked = Except.ok (final, calls) ∧
        calls.map (fun call => call.target)
          = [WorkTarget.blockingQueue, WorkTarget.runningQueue 0]) ∧
    ((Examples.long.runningQueues[1]?).map Queue.isEmpty = some true ∧
      ∃ (final : Scheduler) (calls : List WorkCall),
        Scheduler.iteration (Queue.work 3) 3 100 Examples.long = Except.ok (final, calls) ∧
        calls.map (fun call => call.target)
          = [WorkTarget.runningQueue 0, WorkTarget.runningQueue 1]) ∧
    (∃ (final : Scheduler) (calls : List WorkCall),
      Scheduler.iteration (Queue.work 3) 3 100 Examples.admitted = Except.ok (final, calls) ∧
      calls.map (fun call => call.target) = [WorkTarget.runningQueue 0] ∧
      final.blockingQueue.processes = [⟨2, 0, 8⟩] ∧
      (∀ call ∈ calls, call.target = WorkTarget.blockingQueue →
        call.pre = Examples.admitted ∧ Examples.admitted.blockingQueue.isEmpty = false) ∧
      (∀ call ∈ calls.tail, call.target ≠ WorkTarget.blockingQueue) ∧
      (Examples.admitted.blockingQueue.isEmpty = true →
        ∀ call ∈ calls, call.target ≠ WorkTarget.blockingQueue)) :=
  ⟨⟨rfl, _, _, rfl, rfl⟩, ⟨rfl, _, _, rfl, rfl⟩,
    ⟨_, _, rfl, rfl, rfl,
      (run_same_iteration_cascade (Queue.work 3) 3 100 Examples.admitted).2.2.1 _ _ rfl⟩⟩

end MLFQ
